import Mathlib

/-!
# FT5406 capacitive touch panel driver (mtb_ctp_ft5406.c / mtb_ctp_ft5406.h)

A shallow embedding of the driver: the two I2C transaction executors
(`mtb_ctp_i2c_controller_read`, `mtb_ctp_i2c_controller_write`) with their
poll / retry / recovery loops, the raw touch-data read, and the two decoding
entry points `mtb_ctp_ft5406_get_single_touch` and
`mtb_ctp_ft5406_get_multi_touch`.

* The PDL (`cy_pdl.h`) is not part of the driver.  Its status constants are a
  parameter (`Pdl`), and its functions are an arbitrary state machine
  (`I2cBus σ`) acting on the peripheral state and on the receive buffer.
* Every call of a PDL function is recorded in a ghost call log
  (`World.calls`), which no PDL function can read or change.
* The do-while loops are fuel-indexed; the counters keep the width of
  their C type (`uint8_t retry_count`, `uint32_t timeout_count`).  Five units
  of fuel are enough for every call (`RETRY_COUNT`, `I2C_TIMEOUT_COUNT`).
* The static pointer `ft5406_config` is the parameter `cfg` of the functions
  that dereference it; `CY_ASSERT` makes a null pointer a precondition
  violation, which is not modelled.
-/

namespace FT5406

/-! ## Constants of the driver -/

/-- Header constant: maximum number of simultaneously detected touches. -/
def MTB_CTP_FT5406_MAX_TOUCHES : Nat := 5

/-- Header constant: raw touch data length. -/
def MTB_CTP_FT5406_TOUCH_DATA_LEN : Nat := 32

/-- Header constant: device-mode register. -/
def MTB_CTP_FT5406_DEVICE_MODE : Nat := 0x00

/-- Header constant: register where the touch data begins. -/
def MTB_CTP_REG_READ_TOUCH_DATA : Nat := 0x01

/-- Header constant: normal operating mode. -/
def MTB_CTP_FT5406_NORMAL_MODE : Nat := 0x00

/-- Header constant: I2C target address of the panel controller. -/
def MTB_CTP_FT5406_I2C_ADDRESS : Nat := 0x38

/-- Source constant `RETRY_COUNT`. -/
def RETRY_COUNT : Nat := 5

/-- Source constant `I2C_TIMEOUT_COUNT`. -/
def I2C_TIMEOUT_COUNT : Nat := 5

/-- Source constant `I2C_DELAY_MS`. -/
def I2C_DELAY_MS : Nat := 1

/-- Source constant `RESET_VAL`. -/
def RESET_VAL : Nat := 0

/-- Enumerator 0 of `mtb_ctp_touch_event_t`. -/
def MTB_CTP_TOUCH_DOWN : Nat := 0

/-- Enumerator 1 of `mtb_ctp_touch_event_t`. -/
def MTB_CTP_TOUCH_UP : Nat := 1

/-- Enumerator 2 of `mtb_ctp_touch_event_t`. -/
def MTB_CTP_TOUCH_CONTACT : Nat := 2

/-- Enumerator 3 of `mtb_ctp_touch_event_t`. -/
def MTB_CTP_TOUCH_RESERVED : Nat := 3

/-! ## The PDL interface (external to the driver) -/

/-- Constants of `cy_pdl.h` used by the driver.  Their values are not part of
the driver sources, so they are a parameter of every definition using them. -/
structure Pdl where
  CY_SCB_I2C_SUCCESS : Nat
  CY_SCB_I2C_MASTER_BUSY : Nat
  CY_SCB_I2C_MASTER_DATA_NAK : Nat
  CY_SCB_I2C_MASTER_ADDR_NAK : Nat
  CY_SCB_I2C_MASTER_ARB_LOST : Nat
  CY_SCB_I2C_MASTER_ABORT_START : Nat
  CY_SCB_I2C_MASTER_BUS_ERR : Nat
  deriving DecidableEq, Repr

/-- Source macro `I2C_CONTROLLER_ERROR_MASK`. -/
def I2C_CONTROLLER_ERROR_MASK (P : Pdl) : Nat :=
  P.CY_SCB_I2C_MASTER_DATA_NAK |||
  P.CY_SCB_I2C_MASTER_ADDR_NAK |||
  P.CY_SCB_I2C_MASTER_ARB_LOST |||
  P.CY_SCB_I2C_MASTER_ABORT_START |||
  P.CY_SCB_I2C_MASTER_BUS_ERR

/-- A buffer pointer handed to an executor: either the receive buffer
`ft5406_config->touch_buff`, or a local array with the given contents
(`&get_touch_cmd`, `device_mode`). -/
inductive buf_ptr where
  | touch_buff : buf_ptr
  | stack (bytes : List Nat) : buf_ptr
  deriving DecidableEq, Repr

/-- The fields of the PDL transfer descriptor that the driver fills in. -/
structure cy_stc_scb_i2c_master_xfer_config_t where
  slaveAddress : Nat
  buffer : buf_ptr
  bufferSize : Nat
  xferPending : Bool
  deriving DecidableEq, Repr

/-- The two handles of `mtb_ctp_ft5406_config_t`; its third member, the array
`touch_buff`, is the field `Hw.touch_buff` of the state. -/
structure mtb_ctp_ft5406_config_t where
  i2c_base : Nat
  i2c_context : Nat
  deriving DecidableEq, Repr

/-- What the PDL can see and change: the peripheral (any state type `σ`) and
the contents of the receive buffer `ft5406_config->touch_buff`, which an
ongoing read transfer fills in. -/
structure Hw (σ : Type) where
  dev : σ
  touch_buff : List Nat

/-- An arbitrary implementation ("bus stub") of the PDL functions that the
driver calls. -/
structure I2cBus (σ : Type) where
  MasterRead : Nat → cy_stc_scb_i2c_master_xfer_config_t → Nat → Hw σ → Nat × Hw σ
  MasterWrite : Nat → cy_stc_scb_i2c_master_xfer_config_t → Nat → Hw σ → Nat × Hw σ
  MasterGetStatus : Nat → Nat → Hw σ → Nat × Hw σ
  MasterGetTransferCount : Nat → Nat → Hw σ → Nat × Hw σ
  Disable : Nat → Nat → Hw σ → Hw σ
  Enable : Nat → Hw σ → Hw σ
  Delay : Nat → Hw σ → Hw σ

/-- One recorded call of a PDL function. -/
inductive PdlCall where
  | MasterRead (xfer : cy_stc_scb_i2c_master_xfer_config_t) : PdlCall
  | MasterWrite (xfer : cy_stc_scb_i2c_master_xfer_config_t) : PdlCall
  | MasterGetStatus : PdlCall
  | MasterGetTransferCount : PdlCall
  | Disable : PdlCall
  | Enable : PdlCall
  | Delay (ms : Nat) : PdlCall
  deriving DecidableEq, Repr

/-- The state threaded through the driver: the hardware and the ghost log of
PDL calls made so far. -/
structure World (σ : Type) where
  hw : Hw σ
  calls : List PdlCall

section Calls
variable {σ : Type} (B : I2cBus σ)

/-- Call of `Cy_SCB_I2C_MasterRead`. -/
def Cy_SCB_I2C_MasterRead (base : Nat) (xfer : cy_stc_scb_i2c_master_xfer_config_t)
    (ctx : Nat) (w : World σ) : Nat × World σ :=
  ((B.MasterRead base xfer ctx w.hw).1,
   ⟨(B.MasterRead base xfer ctx w.hw).2, w.calls ++ [PdlCall.MasterRead xfer]⟩)

/-- Call of `Cy_SCB_I2C_MasterWrite`. -/
def Cy_SCB_I2C_MasterWrite (base : Nat) (xfer : cy_stc_scb_i2c_master_xfer_config_t)
    (ctx : Nat) (w : World σ) : Nat × World σ :=
  ((B.MasterWrite base xfer ctx w.hw).1,
   ⟨(B.MasterWrite base xfer ctx w.hw).2, w.calls ++ [PdlCall.MasterWrite xfer]⟩)

/-- Call of `Cy_SCB_I2C_MasterGetStatus`. -/
def Cy_SCB_I2C_MasterGetStatus (base ctx : Nat) (w : World σ) : Nat × World σ :=
  ((B.MasterGetStatus base ctx w.hw).1,
   ⟨(B.MasterGetStatus base ctx w.hw).2, w.calls ++ [PdlCall.MasterGetStatus]⟩)

/-- Call of `Cy_SCB_I2C_MasterGetTransferCount`. -/
def Cy_SCB_I2C_MasterGetTransferCount (base ctx : Nat) (w : World σ) : Nat × World σ :=
  ((B.MasterGetTransferCount base ctx w.hw).1,
   ⟨(B.MasterGetTransferCount base ctx w.hw).2, w.calls ++ [PdlCall.MasterGetTransferCount]⟩)

/-- Call of `Cy_SCB_I2C_Disable`. -/
def Cy_SCB_I2C_Disable (base ctx : Nat) (w : World σ) : World σ :=
  ⟨B.Disable base ctx w.hw, w.calls ++ [PdlCall.Disable]⟩

/-- Call of `Cy_SCB_I2C_Enable`. -/
def Cy_SCB_I2C_Enable (base : Nat) (w : World σ) : World σ :=
  ⟨B.Enable base w.hw, w.calls ++ [PdlCall.Enable]⟩

/-- Call of `Cy_SysLib_Delay`. -/
def Cy_SysLib_Delay (ms : Nat) (w : World σ) : World σ :=
  ⟨B.Delay ms w.hw, w.calls ++ [PdlCall.Delay ms]⟩

end Calls

/-! ## The transaction executors -/

section Executor
variable {σ : Type} (P : Pdl) (B : I2cBus σ) (cfg : mtb_ctp_ft5406_config_t)

/-- The inner do-while loop of both executors (lines 114-121 and 196-203):
poll the status, wait `I2C_DELAY_MS`, decrement the `uint32_t timeout_count`,
and repeat while the busy bit is set and `timeout_count` is not zero.  Returns
the last polled status `i2c_controller_stat`. -/
def wait_complete : Nat → Nat → World σ → Option (Nat × World σ)
  | 0, _, _ => none
  | fuel + 1, timeout_count, w =>
    let r := Cy_SCB_I2C_MasterGetStatus B cfg.i2c_base cfg.i2c_context w
    let i2c_controller_stat := r.1
    let w1 := Cy_SysLib_Delay B I2C_DELAY_MS r.2
    let timeout_count1 := (timeout_count + 2 ^ 32 - 1) % 2 ^ 32
    if (P.CY_SCB_I2C_MASTER_BUSY &&& i2c_controller_stat) ≠ 0 ∧ timeout_count1 ≠ 0 then
      wait_complete fuel timeout_count1 w1
    else
      some (i2c_controller_stat, w1)

/-- The body of the outer do-while loop of `mtb_ctp_i2c_controller_read`
(lines 103-139).  Takes `retry_count`; returns `i2c_status`, the new
`retry_count` (a `uint8_t`) and the state. -/
def controller_read_body (fuel : Nat) (xfer : cy_stc_scb_i2c_master_xfer_config_t)
    (retry_count : Nat) (w : World σ) : Option (Nat × Nat × World σ) :=
  let r := Cy_SCB_I2C_MasterRead B cfg.i2c_base xfer cfg.i2c_context w
  let i2c_status := r.1
  if P.CY_SCB_I2C_SUCCESS = i2c_status then
    match wait_complete P B cfg fuel I2C_TIMEOUT_COUNT r.2 with
    | none => none
    | some (i2c_controller_stat, w1) =>
      if (I2C_CONTROLLER_ERROR_MASK P &&& i2c_controller_stat) = 0 then
        some (P.CY_SCB_I2C_SUCCESS, RESET_VAL, w1)
      else
        let w2 := Cy_SCB_I2C_Disable B cfg.i2c_base cfg.i2c_context w1
        let w3 := Cy_SCB_I2C_Enable B cfg.i2c_base w2
        some (i2c_status, (retry_count + 256 - 1) % 256, w3)
  else
    some (i2c_status, (retry_count + 256 - 1) % 256, r.2)

/-- The outer do-while loop of `mtb_ctp_i2c_controller_read` (lines 101-140):
run the body, repeat while `retry_count` is not zero; returns `i2c_status`.
The first argument is the fuel of the inner loop. -/
def controller_read_loop (pfuel : Nat) (xfer : cy_stc_scb_i2c_master_xfer_config_t) :
    Nat → Nat → World σ → Option (Nat × World σ)
  | 0, _, _ => none
  | fuel + 1, retry_count, w =>
    match controller_read_body P B cfg pfuel xfer retry_count w with
    | none => none
    | some (i2c_status, retry_count1, w1) =>
      if retry_count1 ≠ 0 then controller_read_loop pfuel xfer fuel retry_count1 w1
      else some (i2c_status, w1)

/-- Source function `mtb_ctp_i2c_controller_read` (lines 83-143). -/
def mtb_ctp_i2c_controller_read (fuel : Nat) (read_buff : buf_ptr) (buff_size : Nat)
    (w : World σ) : Option (Nat × World σ) :=
  let transfer_config : cy_stc_scb_i2c_master_xfer_config_t :=
    { slaveAddress := MTB_CTP_FT5406_I2C_ADDRESS
      buffer := read_buff
      bufferSize := buff_size
      xferPending := false }
  controller_read_loop P B cfg fuel transfer_config fuel RETRY_COUNT w

/-- The body of the outer do-while loop of `mtb_ctp_i2c_controller_write`
(lines 184-225).  The transfer count is only fetched when no error bit is set
(short-circuit `&&`). -/
def controller_write_body (fuel : Nat) (xfer : cy_stc_scb_i2c_master_xfer_config_t)
    (retry_count : Nat) (w : World σ) : Option (Nat × Nat × World σ) :=
  let r := Cy_SCB_I2C_MasterWrite B cfg.i2c_base xfer cfg.i2c_context w
  let i2c_status := r.1
  if P.CY_SCB_I2C_SUCCESS = i2c_status then
    match wait_complete P B cfg fuel I2C_TIMEOUT_COUNT r.2 with
    | none => none
    | some (i2c_controller_stat, w1) =>
      if (I2C_CONTROLLER_ERROR_MASK P &&& i2c_controller_stat) = 0 then
        let c := Cy_SCB_I2C_MasterGetTransferCount B cfg.i2c_base cfg.i2c_context w1
        if xfer.bufferSize = c.1 then
          some (P.CY_SCB_I2C_SUCCESS, RESET_VAL, c.2)
        else
          let w2 := Cy_SCB_I2C_Disable B cfg.i2c_base cfg.i2c_context c.2
          let w3 := Cy_SCB_I2C_Enable B cfg.i2c_base w2
          some (i2c_status, (retry_count + 256 - 1) % 256, w3)
      else
        let w2 := Cy_SCB_I2C_Disable B cfg.i2c_base cfg.i2c_context w1
        let w3 := Cy_SCB_I2C_Enable B cfg.i2c_base w2
        some (i2c_status, (retry_count + 256 - 1) % 256, w3)
  else
    some (i2c_status, (retry_count + 256 - 1) % 256, r.2)

/-- The outer do-while loop of `mtb_ctp_i2c_controller_write` (lines 182-226). -/
def controller_write_loop (pfuel : Nat) (xfer : cy_stc_scb_i2c_master_xfer_config_t) :
    Nat → Nat → World σ → Option (Nat × World σ)
  | 0, _, _ => none
  | fuel + 1, retry_count, w =>
    match controller_write_body P B cfg pfuel xfer retry_count w with
    | none => none
    | some (i2c_status, retry_count1, w1) =>
      if retry_count1 ≠ 0 then controller_write_loop pfuel xfer fuel retry_count1 w1
      else some (i2c_status, w1)

/-- Source function `mtb_ctp_i2c_controller_write` (lines 163-229). -/
def mtb_ctp_i2c_controller_write (fuel : Nat) (write_buff : buf_ptr) (buff_size : Nat)
    (w : World σ) : Option (Nat × World σ) :=
  let transfer_config : cy_stc_scb_i2c_master_xfer_config_t :=
    { slaveAddress := MTB_CTP_FT5406_I2C_ADDRESS
      buffer := write_buff
      bufferSize := buff_size
      xferPending := false }
  controller_write_loop P B cfg fuel transfer_config fuel RETRY_COUNT w

/-- Source function `mtb_ctp_ft5406_read_raw_touch_data` (lines 249-266). -/
def mtb_ctp_ft5406_read_raw_touch_data (fuel : Nat) (touch_data : buf_ptr) (size : Nat)
    (w : World σ) : Option (Nat × World σ) :=
  let get_touch_cmd := MTB_CTP_REG_READ_TOUCH_DATA
  match mtb_ctp_i2c_controller_write P B cfg fuel (buf_ptr.stack [get_touch_cmd]) 1 w with
  | none => none
  | some (i2c_status, w1) =>
    if P.CY_SCB_I2C_SUCCESS = i2c_status then
      mtb_ctp_i2c_controller_read P B cfg fuel touch_data size w1
    else
      some (i2c_status, w1)

end Executor

/-! ## The touch frame and its decoding -/

/-- Header type `mtb_ctp_ft5406_touch_point_t`: six bytes. -/
structure mtb_ctp_ft5406_touch_point_t where
  XH : Nat
  XL : Nat
  YH : Nat
  YL : Nat
  reserved : Nat × Nat
  deriving DecidableEq, Repr

/-- Header type `mtb_ctp_multi_touch_point_t`. -/
structure mtb_ctp_multi_touch_point_t where
  touch_event : Nat
  touch_id : Nat
  touch_x : Nat
  touch_y : Nat
  deriving DecidableEq, Repr

/-- Member `touch_detection_count` of the buffer viewed as
`mtb_ctp_ft5406_touch_data_t` (byte offset 1). -/
def touch_detection_count (touch_buff : List Nat) : Nat :=
  touch_buff.getD 1 0

/-- Member `touch_points[i]` of the buffer viewed as
`mtb_ctp_ft5406_touch_data_t`: the struct has only `uint8_t` members, so the
record starts at byte offset `2 + 6 * i`. -/
def touch_points (touch_buff : List Nat) (i : Nat) : mtb_ctp_ft5406_touch_point_t :=
  { XH := touch_buff.getD (2 + 6 * i) 0
    XL := touch_buff.getD (2 + 6 * i + 1) 0
    YH := touch_buff.getD (2 + 6 * i + 2) 0
    YL := touch_buff.getD (2 + 6 * i + 3) 0
    reserved := (touch_buff.getD (2 + 6 * i + 4) 0, touch_buff.getD (2 + 6 * i + 5) 0) }

/-- Source macro `TOUCH_POINT_GET_EVENT`: `(uint8_t)((T).XH >> 6U)`. -/
def TOUCH_POINT_GET_EVENT (T : mtb_ctp_ft5406_touch_point_t) : Nat :=
  (T.XH >>> 6) % 256

/-- Source macro `TOUCH_POINT_GET_ID`: `(T).YH >> 4`. -/
def TOUCH_POINT_GET_ID (T : mtb_ctp_ft5406_touch_point_t) : Nat :=
  T.YH >>> 4

/-- Source macro `TOUCH_POINT_GET_X`:
`(int)((((uint16_t)(T).XH & 0x0fU) << 8) | (uint16_t)(T).XL)`. -/
def TOUCH_POINT_GET_X (T : mtb_ctp_ft5406_touch_point_t) : Int :=
  ((((((T.XH % 65536) &&& 0x0f) <<< 8) % 2 ^ 32) ||| (T.XL % 65536) : Nat) : Int)

/-- Source macro `TOUCH_POINT_GET_Y`:
`(int)((((uint16_t)(T).YH & 0x0fU) << 8) | (uint16_t)(T).YL)`. -/
def TOUCH_POINT_GET_Y (T : mtb_ctp_ft5406_touch_point_t) : Int :=
  ((((((T.YH % 65536) &&& 0x0f) <<< 8) % 2 ^ 32) ||| (T.YL % 65536) : Nat) : Int)

/-- A C loop `for (i = 0; i < n; i++) body`, for a bound `n` that the body does
not change. -/
def for_upto {α : Type} (n : Nat) (body : Nat → α → α) (a : α) : α :=
  (List.range n).foldl (fun acc i => body i acc) a

/-- The values behind the three out-pointers of
`mtb_ctp_ft5406_get_single_touch`. -/
structure SingleTouch where
  touch_event : Nat
  touch_x : Int
  touch_y : Int
  deriving DecidableEq, Repr

/-- The values behind the two out-pointers of
`mtb_ctp_ft5406_get_multi_touch`. -/
structure MultiTouch where
  touch_count : Int
  touch_array : List mtb_ctp_multi_touch_point_t
  deriving DecidableEq, Repr

section Driver
variable {σ : Type} (P : Pdl) (B : I2cBus σ) (cfg : mtb_ctp_ft5406_config_t)

/-- Source function `mtb_ctp_ft5406_init` (lines 285-297).  The first
component of the result is the value that the call stores in the static
pointer `ft5406_config`; the other functions take that value as `cfg`. -/
def mtb_ctp_ft5406_init (fuel : Nat) (mtb_ft5406_config : mtb_ctp_ft5406_config_t)
    (w : World σ) : mtb_ctp_ft5406_config_t × Option (Nat × World σ) :=
  let device_mode := [MTB_CTP_FT5406_DEVICE_MODE, MTB_CTP_FT5406_NORMAL_MODE]
  let ft5406_config := mtb_ft5406_config
  (ft5406_config,
   mtb_ctp_i2c_controller_write P B ft5406_config fuel (buf_ptr.stack device_mode) 2 w)

/-- Source function `mtb_ctp_ft5406_get_single_touch` (lines 322-362).  The
argument `out` holds the caller's values of `*touch_event`, `*touch_x`,
`*touch_y` before the call. -/
def mtb_ctp_ft5406_get_single_touch (fuel : Nat) (out : SingleTouch) (w : World σ) :
    Option (Nat × SingleTouch × World σ) :=
  let out1 := { out with touch_event := MTB_CTP_TOUCH_RESERVED }
  match mtb_ctp_ft5406_read_raw_touch_data P B cfg fuel buf_ptr.touch_buff
      MTB_CTP_FT5406_TOUCH_DATA_LEN w with
  | none => none
  | some (i2c_status, w1) =>
    if P.CY_SCB_I2C_SUCCESS = i2c_status then
      let touch_data := w1.hw.touch_buff
      let out2 := { out1 with touch_event := TOUCH_POINT_GET_EVENT (touch_points touch_data 0) }
      if MTB_CTP_TOUCH_DOWN = out2.touch_event ∨ MTB_CTP_TOUCH_CONTACT = out2.touch_event then
        some (i2c_status,
          { out2 with
            touch_x := TOUCH_POINT_GET_X (touch_points touch_data 0)
            touch_y := TOUCH_POINT_GET_Y (touch_points touch_data 0) }, w1)
      else
        some (i2c_status, out2, w1)
    else
      some (i2c_status, out1, w1)

/-- The first loop of `mtb_ctp_ft5406_get_multi_touch` (lines 412-418). -/
def decode_valid_touch_points (touch_data : List Nat)
    (touch_array : List mtb_ctp_multi_touch_point_t) : List mtb_ctp_multi_touch_point_t :=
  for_upto (touch_detection_count touch_data) (fun i arr =>
    arr.set i
      { touch_event := TOUCH_POINT_GET_EVENT (touch_points touch_data i)
        touch_id := TOUCH_POINT_GET_ID (touch_points touch_data i) % 256
        touch_x := (TOUCH_POINT_GET_X (touch_points touch_data i) % 65536).toNat
        touch_y := (TOUCH_POINT_GET_Y (touch_points touch_data i) % 65536).toNat })
    touch_array

/-- The second loop of `mtb_ctp_ft5406_get_multi_touch` (lines 421-427). -/
def clear_touch_array (touch_array : List mtb_ctp_multi_touch_point_t) :
    List mtb_ctp_multi_touch_point_t :=
  for_upto MTB_CTP_FT5406_MAX_TOUCHES (fun i arr =>
    arr.set i
      { touch_event := MTB_CTP_TOUCH_RESERVED
        touch_id := RESET_VAL
        touch_x := RESET_VAL
        touch_y := RESET_VAL })
    touch_array

/-- Source function `mtb_ctp_ft5406_get_multi_touch` (lines 382-431).  The
argument `out` holds the caller's `*touch_count` and `touch_array` before the
call.  The clamped count is written back into the receive buffer. -/
def mtb_ctp_ft5406_get_multi_touch (fuel : Nat) (out : MultiTouch) (w : World σ) :
    Option (Nat × MultiTouch × World σ) :=
  match mtb_ctp_ft5406_read_raw_touch_data P B cfg fuel buf_ptr.touch_buff
      MTB_CTP_FT5406_TOUCH_DATA_LEN w with
  | none => none
  | some (i2c_status, w1) =>
    if P.CY_SCB_I2C_SUCCESS = i2c_status then
      let touch_data :=
        if MTB_CTP_FT5406_MAX_TOUCHES < touch_detection_count w1.hw.touch_buff then
          w1.hw.touch_buff.set 1 RESET_VAL
        else
          w1.hw.touch_buff
      let touch_count : Int := (touch_detection_count touch_data : Nat)
      let arr1 := decode_valid_touch_points touch_data out.touch_array
      let arr2 := clear_touch_array arr1
      some (i2c_status, { touch_count := touch_count, touch_array := arr2 },
        { w1 with hw := { w1.hw with touch_buff := touch_data } })
    else
      some (i2c_status, out, w1)

end Driver

/-! ## Concrete bus stubs, for evaluating the driver -/

/-- An assignment of the PDL constants: success is 0 and the status flags are
distinct single bits. -/
def pdl0 : Pdl :=
  { CY_SCB_I2C_SUCCESS := 0
    CY_SCB_I2C_MASTER_BUSY := 0x00010000
    CY_SCB_I2C_MASTER_DATA_NAK := 0x00200000
    CY_SCB_I2C_MASTER_ADDR_NAK := 0x00100000
    CY_SCB_I2C_MASTER_ARB_LOST := 0x00400000
    CY_SCB_I2C_MASTER_ABORT_START := 0x01000000
    CY_SCB_I2C_MASTER_BUS_ERR := 0x00800000 }

/-- State of the scripted stub: queues of the values that the next issuances,
status polls and transfer-count queries return, the frame that a read
delivers, and the size of the last issued transfer. -/
structure Script where
  issue : List Nat
  status : List Nat
  count : List Nat
  frame : List Nat
  size : Nat
  deriving DecidableEq, Repr

/-- A scripted bus stub.  An issuance returns the head of `issue` (0 when the
queue is empty); a read issued with status 0 delivers `frame` into the receive
buffer.  A status poll returns the head of `status` (0 when empty).  A
transfer-count query returns the head of `count` (the size of the last issued
transfer when empty).  Disable, enable and delay do nothing. -/
def script_bus : I2cBus Script where
  MasterRead := fun _ xfer _ h =>
    (h.dev.issue.headD 0,
     { dev := { h.dev with issue := h.dev.issue.tail, size := xfer.bufferSize }
       touch_buff := if h.dev.issue.headD 0 = 0 ∧ xfer.buffer = buf_ptr.touch_buff
                     then h.dev.frame else h.touch_buff })
  MasterWrite := fun _ xfer _ h =>
    (h.dev.issue.headD 0,
     { h with dev := { h.dev with issue := h.dev.issue.tail, size := xfer.bufferSize } })
  MasterGetStatus := fun _ _ h =>
    (h.dev.status.headD 0, { h with dev := { h.dev with status := h.dev.status.tail } })
  MasterGetTransferCount := fun _ _ h =>
    (h.dev.count.headD h.dev.size, { h with dev := { h.dev with count := h.dev.count.tail } })
  Disable := fun _ _ h => h
  Enable := fun _ h => h
  Delay := fun _ h => h

/-- A configuration with two arbitrary handles. -/
def cfg0 : mtb_ctp_ft5406_config_t := { i2c_base := 1, i2c_context := 2 }

/-- Initial state of the scripted stub with the given queues and frame, a
receive buffer holding `buff`, and an empty call log. -/
def script_world (issue status count frame buff : List Nat) : World Script :=
  { hw := { dev := { issue := issue, status := status, count := count, frame := frame, size := 0 }
            touch_buff := buff }
    calls := [] }

/-- The PDL calls of one raw touch-data read in which the register-select
write and the frame read both succeed at the first attempt and the first poll:
the write of `[0x01]` with its poll, delay and transfer-count query, then the
32-byte read with its poll and delay. -/
def read_raw_calls : List PdlCall :=
  [ PdlCall.MasterWrite
      { slaveAddress := 0x38, buffer := buf_ptr.stack [0x01], bufferSize := 1, xferPending := false },
    PdlCall.MasterGetStatus, PdlCall.Delay 1, PdlCall.MasterGetTransferCount,
    PdlCall.MasterRead
      { slaveAddress := 0x38, buffer := buf_ptr.touch_buff, bufferSize := 32, xferPending := false },
    PdlCall.MasterGetStatus, PdlCall.Delay 1 ]

/-- State of the scripted stub, started with empty queues, after it delivered
`frame` in one raw touch-data read. -/
def delivered (frame : List Nat) : World Script :=
  { hw := { dev := { issue := [], status := [], count := [], frame := frame, size := 32 }
            touch_buff := frame }
    calls := read_raw_calls }

/-- A state of the scripted stub given by all its components. -/
def script_state (issue status count frame : List Nat) (size : Nat) (buff : List Nat)
    (calls : List PdlCall) : World Script :=
  { hw := { dev := { issue := issue, status := status, count := count, frame := frame,
                     size := size }
            touch_buff := buff }
    calls := calls }

/-- The PDL calls of an attempt that starts with the call `issue`, polls once
and ends in the recovery. -/
def faulted_attempt_calls (issue : PdlCall) : List PdlCall :=
  [issue, PdlCall.MasterGetStatus, PdlCall.Delay 1, PdlCall.Disable, PdlCall.Enable]

/-- A bus stub without state: every issuance succeeds (returns 0), every
status poll returns `stat`, every transfer-count query returns `count`. -/
def constant_bus (stat count : Nat) : I2cBus Unit where
  MasterRead := fun _ _ _ h => (0, h)
  MasterWrite := fun _ _ _ h => (0, h)
  MasterGetStatus := fun _ _ h => (stat, h)
  MasterGetTransferCount := fun _ _ h => (count, h)
  Disable := fun _ _ h => h
  Enable := fun _ h => h
  Delay := fun _ h => h

/-- A state of a stateless stub: a receive buffer and a call log. -/
def unit_world (buff : List Nat) (calls : List PdlCall) : World Unit :=
  { hw := { dev := (), touch_buff := buff }, calls := calls }

/-- A bus stub on which every issuance fails: the issuance number `n`
(counted from 0 in the state) returns the status `code + n`. -/
def failing_bus (code : Nat) : I2cBus Nat where
  MasterRead := fun _ _ _ h => (code + h.dev, { h with dev := h.dev + 1 })
  MasterWrite := fun _ _ _ h => (code + h.dev, { h with dev := h.dev + 1 })
  MasterGetStatus := fun _ _ h => (0, h)
  MasterGetTransferCount := fun _ _ h => (0, h)
  Disable := fun _ _ h => h
  Enable := fun _ h => h
  Delay := fun _ h => h

/-- A state of the counting stub `failing_bus`. -/
def counter_world (n : Nat) (buff : List Nat) (calls : List PdlCall) : World Nat :=
  { hw := { dev := n, touch_buff := buff }, calls := calls }

/-! ## Notions used to state the properties -/

/-- A raw touch point built from an event code `e`, coordinates `x`, `y` and
an identifier `id` as the frame layout packs them; `u` fills the two unused
bits 5..4 of `XH`, and `r0`, `r1` the two reserved bytes. -/
def encode_touch_point (e x y id u r0 r1 : Nat) : mtb_ctp_ft5406_touch_point_t :=
  { XH := (e <<< 6) ||| (u <<< 4) ||| (x >>> 8)
    XL := x &&& 0xFF
    YH := (id <<< 4) ||| (y >>> 8)
    YL := y &&& 0xFF
    reserved := (r0, r1) }

/-- The cleared output slot `{Reserved, 0, 0, 0}`. -/
def cleared_point : mtb_ctp_multi_touch_point_t :=
  { touch_event := MTB_CTP_TOUCH_RESERVED, touch_id := 0, touch_x := 0, touch_y := 0 }

/-- Tells the calls that act on the bus controller: issuing a transfer,
disabling and enabling it (as opposed to status polls, transfer-count queries
and delays). -/
def is_bus_action : PdlCall → Bool
  | PdlCall.MasterRead _ => true
  | PdlCall.MasterWrite _ => true
  | PdlCall.Disable => true
  | PdlCall.Enable => true
  | _ => false

/-- The sub-sequence of the calls that act on the bus controller. -/
def bus_actions (calls : List PdlCall) : List PdlCall :=
  calls.filter is_bus_action

/-- The relation `R` iterated `n` times. -/
def chain {α : Type} (R : α → α → Prop) : Nat → α → α → Prop
  | 0, a, b => b = a
  | n + 1, a, b => ∃ m, R a m ∧ chain R n m b

section Attempts
variable {σ : Type} (P : Pdl) (B : I2cBus σ) (cfg : mtb_ctp_ft5406_config_t)
variable (pfuel : Nat) (xfer : cy_stc_scb_i2c_master_xfer_config_t)

/-- A read attempt started in state `w` is issued successfully, its polling
ends with a status that has an error-mask bit set, and after the disable and
enable calls the state is `w1`. -/
def read_attempt_faulted (w w1 : World σ) : Prop :=
  (Cy_SCB_I2C_MasterRead B cfg.i2c_base xfer cfg.i2c_context w).1 = P.CY_SCB_I2C_SUCCESS ∧
  ∃ stat w2,
    wait_complete P B cfg pfuel I2C_TIMEOUT_COUNT
      (Cy_SCB_I2C_MasterRead B cfg.i2c_base xfer cfg.i2c_context w).2 = some (stat, w2) ∧
    (I2C_CONTROLLER_ERROR_MASK P &&& stat) ≠ 0 ∧
    w1 = Cy_SCB_I2C_Enable B cfg.i2c_base (Cy_SCB_I2C_Disable B cfg.i2c_base cfg.i2c_context w2)

/-- A read attempt started in state `w` is issued successfully and its polling
ends in state `w1` with a status that has no error-mask bit set. -/
def read_attempt_clean (w w1 : World σ) : Prop :=
  (Cy_SCB_I2C_MasterRead B cfg.i2c_base xfer cfg.i2c_context w).1 = P.CY_SCB_I2C_SUCCESS ∧
  ∃ stat,
    wait_complete P B cfg pfuel I2C_TIMEOUT_COUNT
      (Cy_SCB_I2C_MasterRead B cfg.i2c_base xfer cfg.i2c_context w).2 = some (stat, w1) ∧
    (I2C_CONTROLLER_ERROR_MASK P &&& stat) = 0

/-- A write attempt started in state `w` is issued successfully, its polling
ends with a status that has an error-mask bit set, and after the disable and
enable calls the state is `w1`. -/
def write_attempt_faulted (w w1 : World σ) : Prop :=
  (Cy_SCB_I2C_MasterWrite B cfg.i2c_base xfer cfg.i2c_context w).1 = P.CY_SCB_I2C_SUCCESS ∧
  ∃ stat w2,
    wait_complete P B cfg pfuel I2C_TIMEOUT_COUNT
      (Cy_SCB_I2C_MasterWrite B cfg.i2c_base xfer cfg.i2c_context w).2 = some (stat, w2) ∧
    (I2C_CONTROLLER_ERROR_MASK P &&& stat) ≠ 0 ∧
    w1 = Cy_SCB_I2C_Enable B cfg.i2c_base (Cy_SCB_I2C_Disable B cfg.i2c_base cfg.i2c_context w2)

/-- A write attempt started in state `w` is issued successfully, its polling
ends with a status that has no error-mask bit set, and the transfer count then
reported equals the requested size; `w1` is the state after that query. -/
def write_attempt_clean (w w1 : World σ) : Prop :=
  (Cy_SCB_I2C_MasterWrite B cfg.i2c_base xfer cfg.i2c_context w).1 = P.CY_SCB_I2C_SUCCESS ∧
  ∃ stat w2,
    wait_complete P B cfg pfuel I2C_TIMEOUT_COUNT
      (Cy_SCB_I2C_MasterWrite B cfg.i2c_base xfer cfg.i2c_context w).2 = some (stat, w2) ∧
    (I2C_CONTROLLER_ERROR_MASK P &&& stat) = 0 ∧
    xfer.bufferSize = (Cy_SCB_I2C_MasterGetTransferCount B cfg.i2c_base cfg.i2c_context w2).1 ∧
    w1 = (Cy_SCB_I2C_MasterGetTransferCount B cfg.i2c_base cfg.i2c_context w2).2

end Attempts

/-- The bus recovery of the executors: disable the bus controller, then
enable it (lines 131-132 and 216-218). -/
def bus_recovery {σ : Type} (B : I2cBus σ) (cfg : mtb_ctp_ft5406_config_t) (w : World σ) :
    World σ :=
  Cy_SCB_I2C_Enable B cfg.i2c_base (Cy_SCB_I2C_Disable B cfg.i2c_base cfg.i2c_context w)

/-- The transfer descriptor that the executors build for a buffer and a size. -/
def xfer_of (buff : buf_ptr) (buff_size : Nat) : cy_stc_scb_i2c_master_xfer_config_t :=
  { slaveAddress := MTB_CTP_FT5406_I2C_ADDRESS
    buffer := buff
    bufferSize := buff_size
    xferPending := false }

/-- The calls of `j` status polls, each followed by one delay of
`I2C_DELAY_MS`. -/
def poll_calls (j : Nat) : List PdlCall :=
  (List.replicate j [PdlCall.MasterGetStatus, PdlCall.Delay I2C_DELAY_MS]).flatten

/-- The effect on the hardware of one status poll followed by the delay. -/
def poll_step {σ : Type} (B : I2cBus σ) (cfg : mtb_ctp_ft5406_config_t) (h : Hw σ) : Hw σ :=
  B.Delay I2C_DELAY_MS (B.MasterGetStatus cfg.i2c_base cfg.i2c_context h).2

/-- The status that poll number `i + 1` returns when polling starts in the
hardware state `h`. -/
def poll_status {σ : Type} (B : I2cBus σ) (cfg : mtb_ctp_ft5406_config_t) (h : Hw σ)
    (i : Nat) : Nat :=
  (B.MasterGetStatus cfg.i2c_base cfg.i2c_context ((poll_step B cfg)^[i] h)).1

/-- The state after `j` polls (with their delays) made from the state `w`. -/
def after_polls {σ : Type} (B : I2cBus σ) (cfg : mtb_ctp_ft5406_config_t) (j : Nat)
    (w : World σ) : World σ :=
  { hw := (poll_step B cfg)^[j] w.hw, calls := w.calls ++ poll_calls j }

/-- The calls of one attempt: the issuance alone (when it fails), or the
issuance, then between one and five polls each followed by a delay, then one
of the given tails. -/
def attempt_shape (issue : PdlCall) (tails : List (List PdlCall)) (seg : List PdlCall) : Prop :=
  seg = [issue] ∨
  ∃ j tail, 1 ≤ j ∧ j ≤ 5 ∧ tail ∈ tails ∧ seg = [issue] ++ poll_calls j ++ tail

/-- How a read attempt ends after its polls: accepted, or recovered. -/
def read_tails : List (List PdlCall) :=
  [[], [PdlCall.Disable, PdlCall.Enable]]

/-- How a write attempt ends after its polls: transfer count queried and
accepted, queried and recovered, or recovered without a query. -/
def write_tails : List (List PdlCall) :=
  [[PdlCall.MasterGetTransferCount],
   [PdlCall.MasterGetTransferCount, PdlCall.Disable, PdlCall.Enable],
   [PdlCall.Disable, PdlCall.Enable]]

/-- Weight 1 for a transfer issuance. -/
def issue_weight : PdlCall → Nat
  | PdlCall.MasterRead _ => 1
  | PdlCall.MasterWrite _ => 1
  | _ => 0

/-- Weight 1 for the issuance of a read transfer. -/
def read_weight : PdlCall → Nat
  | PdlCall.MasterRead _ => 1
  | _ => 0

/-- Weight 1 for a status poll. -/
def poll_weight : PdlCall → Nat
  | PdlCall.MasterGetStatus => 1
  | _ => 0

/-- The length of a delay, in the time unit of `Cy_SysLib_Delay`. -/
def delay_weight : PdlCall → Nat
  | PdlCall.Delay ms => ms
  | _ => 0

/-- Weight 1 for a bus disable. -/
def disable_weight : PdlCall → Nat
  | PdlCall.Disable => 1
  | _ => 0

/-- Weight 1 for a bus enable. -/
def enable_weight : PdlCall → Nat
  | PdlCall.Enable => 1
  | _ => 0

/-- The total weight of a list of calls. -/
def total (f : PdlCall → Nat) (calls : List PdlCall) : Nat :=
  (calls.map f).sum

/-- The effect on the hardware of one read issuance. -/
def read_issue_step {σ : Type} (B : I2cBus σ) (cfg : mtb_ctp_ft5406_config_t)
    (xfer : cy_stc_scb_i2c_master_xfer_config_t) (h : Hw σ) : Hw σ :=
  (B.MasterRead cfg.i2c_base xfer cfg.i2c_context h).2

/-- The effect on the hardware of one write issuance. -/
def write_issue_step {σ : Type} (B : I2cBus σ) (cfg : mtb_ctp_ft5406_config_t)
    (xfer : cy_stc_scb_i2c_master_xfer_config_t) (h : Hw σ) : Hw σ :=
  (B.MasterWrite cfg.i2c_base xfer cfg.i2c_context h).2

/-- The PDL functions that a write executor calls do not store into the
receive buffer `ft5406_config->touch_buff`: only a read transfer does. -/
def write_keeps_buffer {σ : Type} (B : I2cBus σ) : Prop :=
  (∀ base xfer ctx h, (B.MasterWrite base xfer ctx h).2.touch_buff = h.touch_buff) ∧
  (∀ base ctx h, (B.MasterGetStatus base ctx h).2.touch_buff = h.touch_buff) ∧
  (∀ base ctx h, (B.MasterGetTransferCount base ctx h).2.touch_buff = h.touch_buff) ∧
  (∀ base ctx h, (B.Disable base ctx h).touch_buff = h.touch_buff) ∧
  (∀ base h, (B.Enable base h).touch_buff = h.touch_buff) ∧
  (∀ ms h, (B.Delay ms h).touch_buff = h.touch_buff)

/-! ## Theorems -/

section Decoding

theorem xh_fields : ∀ e < 4, ∀ u < 4, ∀ h < 16,
    (((e <<< 6) ||| (u <<< 4) ||| h) >>> 6) % 256 = e ∧
    (((((e <<< 6) ||| (u <<< 4) ||| h) % 65536) &&& 0x0f) <<< 8) % 2 ^ 32 = 2 ^ 8 * h := by
  decide

theorem yh_fields : ∀ i < 16, ∀ h < 16,
    ((i <<< 4) ||| h) >>> 4 = i ∧
    ((((( i <<< 4) ||| h) % 65536) &&& 0x0f) <<< 8) % 2 ^ 32 = 2 ^ 8 * h := by
  decide

theorem hi_lo_join (x : Nat) : (2 ^ 8 * (x >>> 8)) ||| ((x &&& 0xFF) % 65536) = x := by
  have h1 : x &&& 0xFF = x % 2 ^ 8 := Nat.and_pow_two_sub_one_eq_mod x 8
  have h2 : x % 2 ^ 8 < 2 ^ 8 := Nat.mod_lt _ (by norm_num)
  rw [h1, Nat.mod_eq_of_lt (by omega : x % 2 ^ 8 < 65536), ← Nat.mul_add_lt_is_or h2,
    Nat.shiftRight_eq_div_pow]
  exact Nat.div_add_mod x (2 ^ 8)

/-- Claim C9: bit-extraction round trip.  For every event code e < 4, every x
and y below 4096, every id below 16, arbitrary unused bits u of XH and
arbitrary reserved bytes, the raw touch point that packs them decodes under the
four TOUCH_POINT_GET macros to exactly (e, x, y, id). -/
theorem touch_point_round_trip (e x y id u r0 r1 : Nat)
    (he : e < 4) (hx : x < 4096) (hy : y < 4096) (hid : id < 16) (hu : u < 4) :
    TOUCH_POINT_GET_EVENT (encode_touch_point e x y id u r0 r1) = e ∧
    TOUCH_POINT_GET_X (encode_touch_point e x y id u r0 r1) = (x : Int) ∧
    TOUCH_POINT_GET_Y (encode_touch_point e x y id u r0 r1) = (y : Int) ∧
    TOUCH_POINT_GET_ID (encode_touch_point e x y id u r0 r1) = id := by
  have hxh : x >>> 8 < 16 := by
    rw [Nat.shiftRight_eq_div_pow]; omega
  have hyh : y >>> 8 < 16 := by
    rw [Nat.shiftRight_eq_div_pow]; omega
  obtain ⟨h1, h2⟩ := xh_fields e he u hu (x >>> 8) hxh
  obtain ⟨h3, h4⟩ := yh_fields id hid (y >>> 8) hyh
  refine ⟨h1, ?_, ?_, h3⟩
  · show (((((((e <<< 6 ||| u <<< 4 ||| x >>> 8) % 65536) &&& 0x0f) <<< 8) % 2 ^ 32) |||
      ((x &&& 0xFF) % 65536) : Nat) : Int) = (x : Int)
    rw [h2, hi_lo_join]
  · show (((((((id <<< 4 ||| y >>> 8) % 65536) &&& 0x0f) <<< 8) % 2 ^ 32) |||
      ((y &&& 0xFF) % 65536) : Nat) : Int) = (y : Int)
    rw [h4, hi_lo_join]

theorem touch_point_round_trip_witness :
    TOUCH_POINT_GET_EVENT (encode_touch_point 2 0xABC 0x123 7 3 0x55 0xAA) = 2 ∧
    TOUCH_POINT_GET_X (encode_touch_point 2 0xABC 0x123 7 3 0x55 0xAA) = ((0xABC : Nat) : Int) ∧
    TOUCH_POINT_GET_Y (encode_touch_point 2 0xABC 0x123 7 3 0x55 0xAA) = ((0x123 : Nat) : Int) ∧
    TOUCH_POINT_GET_ID (encode_touch_point 2 0xABC 0x123 7 3 0x55 0xAA) = 7 :=
  touch_point_round_trip 2 0xABC 0x123 7 3 0x55 0xAA (by decide) (by decide) (by decide)
    (by decide) (by decide)

end Decoding

section Touch
variable {σ : Type} (P : Pdl) (B : I2cBus σ) (cfg : mtb_ctp_ft5406_config_t)

theorem clear_touch_array_eq (l : List mtb_ctp_multi_touch_point_t) (h : l.length = 5) :
    clear_touch_array l = List.replicate 5 cleared_point := by
  match l, h with
  | [_, _, _, _, _], _ => rfl

theorem foldl_set_length {α : Type} (f : Nat → α) (is : List Nat) (l : List α) :
    (is.foldl (fun acc i => acc.set i (f i)) l).length = l.length := by
  induction is generalizing l with
  | nil => rfl
  | cons i is ih => simp [List.foldl_cons, ih]

theorem decode_valid_touch_points_length (touch_data : List Nat)
    (l : List mtb_ctp_multi_touch_point_t) :
    (decode_valid_touch_points touch_data l).length = l.length := by
  unfold decode_valid_touch_points for_upto
  exact foldl_set_length _ _ _

/-- Claim C6: when the bus transactions succeed and the count byte (offset 1)
of the frame is greater than 5, mtb_ctp_ft5406_get_multi_touch reports
touch_count = 0 and all five output slots equal to {Reserved, 0, 0, 0},
whatever the other bytes of the frame and the previous contents of the output
array are. -/
theorem get_multi_touch_clamps_count (fuel : Nat) (out : MultiTouch) (w w1 : World σ)
    (hread : mtb_ctp_ft5406_read_raw_touch_data P B cfg fuel buf_ptr.touch_buff
      MTB_CTP_FT5406_TOUCH_DATA_LEN w = some (P.CY_SCB_I2C_SUCCESS, w1))
    (hcount : 5 < w1.hw.touch_buff.getD 1 0)
    (harr : out.touch_array.length = 5) :
    mtb_ctp_ft5406_get_multi_touch P B cfg fuel out w =
      some (P.CY_SCB_I2C_SUCCESS,
        { touch_count := 0, touch_array := List.replicate 5 cleared_point },
        { w1 with hw := { w1.hw with touch_buff := w1.hw.touch_buff.set 1 0 } }) := by
  have hlen : 1 < w1.hw.touch_buff.length := by
    by_contra hc
    rw [List.getD_eq_default _ _ (by omega)] at hcount
    omega
  have hz : (w1.hw.touch_buff.set 1 0).getD 1 0 = 0 := by
    rw [List.getD_eq_getElem _ _ (by simpa using hlen)]
    simp
  unfold mtb_ctp_ft5406_get_multi_touch
  rw [hread]
  simp only [if_true, touch_detection_count, MTB_CTP_FT5406_MAX_TOUCHES, hcount, RESET_VAL, hz]
  rw [clear_touch_array_eq _ (by rw [decode_valid_touch_points_length]; exact harr)]
  rfl

theorem get_multi_touch_clamps_count_witness :
    mtb_ctp_ft5406_get_multi_touch pdl0 script_bus cfg0 5
        { touch_count := 4, touch_array := List.replicate 5 ⟨0, 9, 100, 200⟩ }
        (script_world [] [] [] ([0x00, 0x06, 0x81, 0x10, 0x32, 0x20] ++ List.replicate 26 0xFF)
          (List.replicate 32 0)) =
      some (0, { touch_count := 0, touch_array := List.replicate 5 cleared_point },
        { hw := { dev := { issue := [], status := [], count := [],
                           frame := [0x00, 0x06, 0x81, 0x10, 0x32, 0x20] ++ List.replicate 26 0xFF,
                           size := 32 }
                  touch_buff := [0x00, 0x00, 0x81, 0x10, 0x32, 0x20] ++ List.replicate 26 0xFF }
          calls := read_raw_calls }) :=
  get_multi_touch_clamps_count pdl0 script_bus cfg0 5
    { touch_count := 4, touch_array := List.replicate 5 ⟨0, 9, 100, 200⟩ }
    (script_world [] [] [] ([0x00, 0x06, 0x81, 0x10, 0x32, 0x20] ++ List.replicate 26 0xFF)
      (List.replicate 32 0))
    (delivered ([0x00, 0x06, 0x81, 0x10, 0x32, 0x20] ++ List.replicate 26 0xFF))
    rfl (by decide) rfl

/-- Claim C7: when the bus transactions succeed and the event decoded from
slot 0 (the top two bits of frame byte 2) is Up or Reserved,
mtb_ctp_ft5406_get_single_touch leaves the x and y outputs at the values the
caller supplied and reports the decoded event. -/
theorem get_single_touch_keeps_coordinates (fuel : Nat) (out : SingleTouch) (w w1 : World σ)
    (hread : mtb_ctp_ft5406_read_raw_touch_data P B cfg fuel buf_ptr.touch_buff
      MTB_CTP_FT5406_TOUCH_DATA_LEN w = some (P.CY_SCB_I2C_SUCCESS, w1))
    (hbyte : w1.hw.touch_buff.getD 2 0 < 256)
    (hev : w1.hw.touch_buff.getD 2 0 >>> 6 = MTB_CTP_TOUCH_UP ∨
      w1.hw.touch_buff.getD 2 0 >>> 6 = MTB_CTP_TOUCH_RESERVED) :
    mtb_ctp_ft5406_get_single_touch P B cfg fuel out w =
      some (P.CY_SCB_I2C_SUCCESS,
        { touch_event := w1.hw.touch_buff.getD 2 0 >>> 6
          touch_x := out.touch_x
          touch_y := out.touch_y }, w1) := by
  have hlt : w1.hw.touch_buff.getD 2 0 >>> 6 < 256 :=
    by
    rw [Nat.shiftRight_eq_div_pow]; omega
  have hE : TOUCH_POINT_GET_EVENT (touch_points w1.hw.touch_buff 0) =
      w1.hw.touch_buff.getD 2 0 >>> 6 := by
    simp only [TOUCH_POINT_GET_EVENT, touch_points]
    exact Nat.mod_eq_of_lt hlt
  unfold mtb_ctp_ft5406_get_single_touch
  rw [hread]
  simp only [if_true, hE]
  have hno : ¬ (MTB_CTP_TOUCH_DOWN = w1.hw.touch_buff.getD 2 0 >>> 6 ∨
      MTB_CTP_TOUCH_CONTACT = w1.hw.touch_buff.getD 2 0 >>> 6) := by
    simp only [MTB_CTP_TOUCH_DOWN, MTB_CTP_TOUCH_CONTACT, MTB_CTP_TOUCH_UP,
      MTB_CTP_TOUCH_RESERVED] at hev ⊢
    omega
  rw [if_neg hno]

theorem get_single_touch_keeps_coordinates_witness :
    mtb_ctp_ft5406_get_single_touch pdl0 script_bus cfg0 5
        { touch_event := 0, touch_x := -7, touch_y := 1234 }
        (script_world [] [] [] ([0x00, 0x01, 0x4A, 0xBC, 0x31, 0x23] ++ List.replicate 26 0)
          (List.replicate 32 0)) =
      some (0, { touch_event := 1, touch_x := -7, touch_y := 1234 },
        delivered ([0x00, 0x01, 0x4A, 0xBC, 0x31, 0x23] ++ List.replicate 26 0)) :=
  (get_single_touch_keeps_coordinates pdl0 script_bus cfg0 5
    { touch_event := 0, touch_x := -7, touch_y := 1234 }
    (script_world [] [] [] ([0x00, 0x01, 0x4A, 0xBC, 0x31, 0x23] ++ List.replicate 26 0)
      (List.replicate 32 0))
    (delivered ([0x00, 0x01, 0x4A, 0xBC, 0x31, 0x23] ++ List.replicate 26 0))
    (by rfl) (by decide) (Or.inl (by decide))).trans (by rfl)

theorem coordinate_value (h l : Nat) (hh : h < 256) (hl : l < 256) :
    ((((h % 65536) &&& 0x0f) <<< 8) % 2 ^ 32) ||| (l % 65536) = ((h &&& 0x0F) <<< 8) ||| l := by
  have h1 : h &&& 0x0F ≤ 0x0F := Nat.and_le_right
  have h2 : (h &&& 0x0F) <<< 8 = (h &&& 0x0F) * 2 ^ 8 := Nat.shiftLeft_eq _ _
  rw [Nat.mod_eq_of_lt (by omega : h < 65536), Nat.mod_eq_of_lt (by omega : l < 65536),
    Nat.mod_eq_of_lt (by omega : (h &&& 0x0F) <<< 8 < 2 ^ 32)]

/-- Claim C8: when the bus transactions succeed and the slot-0 event (frame
byte 2 shifted right by 6) is Down or Contact, mtb_ctp_ft5406_get_single_touch
reports that event and writes x = ((byte2 & 0x0F) << 8) | byte3 and
y = ((byte4 & 0x0F) << 8) | byte5; the outputs are a function of the frame
bytes 2..5 alone, so bytes 0, 1 and 6..31 do not affect them. -/
theorem get_single_touch_writes_coordinates (fuel : Nat) (out : SingleTouch) (w w1 : World σ)
    (hread : mtb_ctp_ft5406_read_raw_touch_data P B cfg fuel buf_ptr.touch_buff
      MTB_CTP_FT5406_TOUCH_DATA_LEN w = some (P.CY_SCB_I2C_SUCCESS, w1))
    (hb2 : w1.hw.touch_buff.getD 2 0 < 256) (hb3 : w1.hw.touch_buff.getD 3 0 < 256)
    (hb4 : w1.hw.touch_buff.getD 4 0 < 256) (hb5 : w1.hw.touch_buff.getD 5 0 < 256)
    (hev : w1.hw.touch_buff.getD 2 0 >>> 6 = MTB_CTP_TOUCH_DOWN ∨
      w1.hw.touch_buff.getD 2 0 >>> 6 = MTB_CTP_TOUCH_CONTACT) :
    mtb_ctp_ft5406_get_single_touch P B cfg fuel out w =
      some (P.CY_SCB_I2C_SUCCESS,
        { touch_event := w1.hw.touch_buff.getD 2 0 >>> 6
          touch_x := ((((w1.hw.touch_buff.getD 2 0 &&& 0x0F) <<< 8) |||
            w1.hw.touch_buff.getD 3 0 : Nat) : Int)
          touch_y := ((((w1.hw.touch_buff.getD 4 0 &&& 0x0F) <<< 8) |||
            w1.hw.touch_buff.getD 5 0 : Nat) : Int) }, w1) := by
  have hlt : w1.hw.touch_buff.getD 2 0 >>> 6 < 256 :=
    by
    rw [Nat.shiftRight_eq_div_pow]; omega
  have hE : TOUCH_POINT_GET_EVENT (touch_points w1.hw.touch_buff 0) =
      w1.hw.touch_buff.getD 2 0 >>> 6 := by
    simp only [TOUCH_POINT_GET_EVENT, touch_points]
    exact Nat.mod_eq_of_lt hlt
  have hX : TOUCH_POINT_GET_X (touch_points w1.hw.touch_buff 0) =
      ((((w1.hw.touch_buff.getD 2 0 &&& 0x0F) <<< 8) ||| w1.hw.touch_buff.getD 3 0 : Nat) : Int) := by
    simp only [TOUCH_POINT_GET_X, touch_points]
    rw [coordinate_value _ _ hb2 hb3]
  have hY : TOUCH_POINT_GET_Y (touch_points w1.hw.touch_buff 0) =
      ((((w1.hw.touch_buff.getD 4 0 &&& 0x0F) <<< 8) ||| w1.hw.touch_buff.getD 5 0 : Nat) : Int) := by
    simp only [TOUCH_POINT_GET_Y, touch_points]
    rw [coordinate_value _ _ hb4 hb5]
  unfold mtb_ctp_ft5406_get_single_touch
  rw [hread]
  simp only [if_true, hE, hX, hY]
  have hyes : MTB_CTP_TOUCH_DOWN = w1.hw.touch_buff.getD 2 0 >>> 6 ∨
      MTB_CTP_TOUCH_CONTACT = w1.hw.touch_buff.getD 2 0 >>> 6 :=
    hev.elim (fun h => Or.inl h.symm) (fun h => Or.inr h.symm)
  rw [if_pos hyes]

theorem get_single_touch_writes_coordinates_witness :
    mtb_ctp_ft5406_get_single_touch pdl0 script_bus cfg0 5
        { touch_event := 1, touch_x := -7, touch_y := 1234 }
        (script_world [] [] [] ([0xEE, 0x09, 0x8A, 0xBC, 0x31, 0x23] ++ List.replicate 26 0x5A)
          (List.replicate 32 0)) =
      some (0, { touch_event := 2, touch_x := ((0xABC : Nat) : Int),
                 touch_y := ((0x123 : Nat) : Int) },
        delivered ([0xEE, 0x09, 0x8A, 0xBC, 0x31, 0x23] ++ List.replicate 26 0x5A)) :=
  (get_single_touch_writes_coordinates pdl0 script_bus cfg0 5
    { touch_event := 1, touch_x := -7, touch_y := 1234 }
    (script_world [] [] [] ([0xEE, 0x09, 0x8A, 0xBC, 0x31, 0x23] ++ List.replicate 26 0x5A)
      (List.replicate 32 0))
    (delivered ([0xEE, 0x09, 0x8A, 0xBC, 0x31, 0x23] ++ List.replicate 26 0x5A))
    (by rfl) (by decide) (by decide) (by decide) (by decide) (Or.inr (by decide))).trans (by rfl)

/-- Claim C1, evaluated on the frame of the specification: the frame
[0x00, 0x01, 0x40, 0x10, 0x30, 0x20, 0, ...] reports one touch {Up, id 3,
x 0x010, y 0x020}, and the code returns count 1 with slot 0 (like every other
slot) cleared to {Reserved, 0, 0, 0}, because the clearing loop starts at
index 0. -/
theorem get_multi_touch_clears_valid_slot :
    mtb_ctp_ft5406_get_multi_touch pdl0 script_bus cfg0 5
        { touch_count := 0, touch_array := List.replicate 5 ⟨0, 9, 100, 200⟩ }
        (script_world [] [] [] ([0x00, 0x01, 0x40, 0x10, 0x30, 0x20] ++ List.replicate 26 0)
          (List.replicate 32 0)) =
      some (0, { touch_count := 1, touch_array := List.replicate 5 cleared_point },
        delivered ([0x00, 0x01, 0x40, 0x10, 0x30, 0x20] ++ List.replicate 26 0)) ∧
    decode_valid_touch_points ([0x00, 0x01, 0x40, 0x10, 0x30, 0x20] ++ List.replicate 26 0)
        (List.replicate 5 ⟨0, 9, 100, 200⟩) =
      ⟨MTB_CTP_TOUCH_UP, 3, 0x010, 0x020⟩ :: List.replicate 4 ⟨0, 9, 100, 200⟩ := by
  constructor <;> rfl

end Touch

section ExecutorLemmas
variable {σ : Type} (P : Pdl) (B : I2cBus σ) (cfg : mtb_ctp_ft5406_config_t)

theorem bus_actions_append (a b : List PdlCall) :
    bus_actions (a ++ b) = bus_actions a ++ bus_actions b := by
  simp [bus_actions]

/-- Whenever the poll loop returns, it has only added status polls and delays
to the call log, and the status it returns is one reported by the bus. -/
theorem wait_complete_calls (fuel : Nat) :
    ∀ (t : Nat) (w w1 : World σ) (stat : Nat),
      wait_complete P B cfg fuel t w = some (stat, w1) →
      ∃ new, w1.calls = w.calls ++ new ∧ bus_actions new = [] ∧
        ∃ hw, stat = (B.MasterGetStatus cfg.i2c_base cfg.i2c_context hw).1 := by
  induction fuel with
  | zero => intro t w w1 stat h; simp [wait_complete] at h
  | succ n ih =>
    intro t w w1 stat h
    rw [wait_complete] at h
    split at h
    · obtain ⟨new, h1, h2, h3⟩ := ih _ _ _ _ h
      refine ⟨[PdlCall.MasterGetStatus, PdlCall.Delay I2C_DELAY_MS] ++ new, ?_, ?_, h3⟩
      · rw [h1]; simp [Cy_SysLib_Delay, Cy_SCB_I2C_MasterGetStatus]
      · rw [bus_actions_append, h2]; rfl
    · simp only [Option.some.injEq, Prod.mk.injEq] at h
      obtain ⟨hs, hw⟩ := h
      refine ⟨[PdlCall.MasterGetStatus, PdlCall.Delay I2C_DELAY_MS], ?_, rfl, w.hw, ?_⟩
      · rw [← hw]; simp [Cy_SysLib_Delay, Cy_SCB_I2C_MasterGetStatus]
      · rw [← hs]; rfl

/-- The poll loop returns whenever the fuel covers `timeout_count`. -/
theorem wait_complete_total (fuel : Nat) :
    ∀ (t : Nat) (w : World σ), 0 < t → t ≤ fuel → t < 2 ^ 32 →
      ∃ stat w1, wait_complete P B cfg fuel t w = some (stat, w1) := by
  induction fuel with
  | zero => intro t w h0 hf; omega
  | succ n ih =>
    intro t w h0 hf h32
    rw [wait_complete]
    have hdec : (t + 2 ^ 32 - 1) % 2 ^ 32 = t - 1 := by omega
    rw [hdec]
    split
    · rename_i hc
      exact ih _ _ (by omega) (by omega) (by omega)
    · exact ⟨_, _, rfl⟩

theorem controller_read_loop_succ (pf : Nat) (xfer : cy_stc_scb_i2c_master_xfer_config_t)
    (fuel rc : Nat) (w w1 : World σ) (st rc1 : Nat)
    (h : controller_read_body P B cfg pf xfer rc w = some (st, rc1, w1)) :
    controller_read_loop P B cfg pf xfer (fuel + 1) rc w =
      if rc1 ≠ 0 then controller_read_loop P B cfg pf xfer fuel rc1 w1 else some (st, w1) := by
  rw [controller_read_loop, h]

theorem controller_write_loop_succ (pf : Nat) (xfer : cy_stc_scb_i2c_master_xfer_config_t)
    (fuel rc : Nat) (w w1 : World σ) (st rc1 : Nat)
    (h : controller_write_body P B cfg pf xfer rc w = some (st, rc1, w1)) :
    controller_write_loop P B cfg pf xfer (fuel + 1) rc w =
      if rc1 ≠ 0 then controller_write_loop P B cfg pf xfer fuel rc1 w1 else some (st, w1) := by
  rw [controller_write_loop, h]

theorem controller_read_body_faulted (pf : Nat) (xfer : cy_stc_scb_i2c_master_xfer_config_t)
    (rc : Nat) (w w1 : World σ) (h : read_attempt_faulted P B cfg pf xfer w w1) :
    controller_read_body P B cfg pf xfer rc w =
      some (P.CY_SCB_I2C_SUCCESS, (rc + 256 - 1) % 256, w1) := by
  obtain ⟨hi, stat, w2, hw, he, rfl⟩ := h
  unfold controller_read_body
  simp only [hi, hw, if_true, if_neg he]

theorem controller_read_body_clean (pf : Nat) (xfer : cy_stc_scb_i2c_master_xfer_config_t)
    (rc : Nat) (w w1 : World σ) (h : read_attempt_clean P B cfg pf xfer w w1) :
    controller_read_body P B cfg pf xfer rc w = some (P.CY_SCB_I2C_SUCCESS, 0, w1) := by
  obtain ⟨hi, stat, hw, he⟩ := h
  unfold controller_read_body
  simp only [hi, hw, if_true, if_pos he, RESET_VAL]

theorem controller_write_body_faulted (pf : Nat) (xfer : cy_stc_scb_i2c_master_xfer_config_t)
    (rc : Nat) (w w1 : World σ) (h : write_attempt_faulted P B cfg pf xfer w w1) :
    controller_write_body P B cfg pf xfer rc w =
      some (P.CY_SCB_I2C_SUCCESS, (rc + 256 - 1) % 256, w1) := by
  obtain ⟨hi, stat, w2, hw, he, rfl⟩ := h
  unfold controller_write_body
  simp only [hi, hw, if_true, if_neg he]

theorem controller_write_body_clean (pf : Nat) (xfer : cy_stc_scb_i2c_master_xfer_config_t)
    (rc : Nat) (w w1 : World σ) (h : write_attempt_clean P B cfg pf xfer w w1) :
    controller_write_body P B cfg pf xfer rc w = some (P.CY_SCB_I2C_SUCCESS, 0, w1) := by
  obtain ⟨hi, stat, w2, hw, he, hc, rfl⟩ := h
  unfold controller_write_body
  simp only [hi, hw, if_true, if_pos he, if_pos hc, RESET_VAL]

/-- After `n` faulted read attempts with budget to spare, the loop goes on
from the state reached, with the budget lowered by `n`. -/
theorem controller_read_loop_faults (pf : Nat) (xfer : cy_stc_scb_i2c_master_xfer_config_t)
    (fuel : Nat) :
    ∀ (n rc : Nat) (w wn : World σ),
      chain (read_attempt_faulted P B cfg pf xfer) n w wn → n < rc → rc ≤ 255 →
      controller_read_loop P B cfg pf xfer (fuel + n) rc w =
        controller_read_loop P B cfg pf xfer fuel (rc - n) wn := by
  intro n
  induction n with
  | zero => intro rc w wn h _ _; cases h; rfl
  | succ n ih =>
    intro rc w wn h hlt hle
    obtain ⟨m, hm, hch⟩ := h
    have hstep := controller_read_loop_succ P B cfg pf xfer (fuel + n) rc w m _ _
      (controller_read_body_faulted P B cfg pf xfer rc w m hm)
    have hdec : (rc + 256 - 1) % 256 = rc - 1 := by omega
    rw [hdec, if_pos (by omega)] at hstep
    rw [show fuel + (n + 1) = fuel + n + 1 from rfl, hstep, ih (rc - 1) m wn hch (by omega) (by omega)]
    congr 1
    omega

theorem controller_write_loop_faults (pf : Nat) (xfer : cy_stc_scb_i2c_master_xfer_config_t)
    (fuel : Nat) :
    ∀ (n rc : Nat) (w wn : World σ),
      chain (write_attempt_faulted P B cfg pf xfer) n w wn → n < rc → rc ≤ 255 →
      controller_write_loop P B cfg pf xfer (fuel + n) rc w =
        controller_write_loop P B cfg pf xfer fuel (rc - n) wn := by
  intro n
  induction n with
  | zero => intro rc w wn h _ _; cases h; rfl
  | succ n ih =>
    intro rc w wn h hlt hle
    obtain ⟨m, hm, hch⟩ := h
    have hstep := controller_write_loop_succ P B cfg pf xfer (fuel + n) rc w m _ _
      (controller_write_body_faulted P B cfg pf xfer rc w m hm)
    have hdec : (rc + 256 - 1) % 256 = rc - 1 := by omega
    rw [hdec, if_pos (by omega)] at hstep
    rw [show fuel + (n + 1) = fuel + n + 1 from rfl, hstep, ih (rc - 1) m wn hch (by omega) (by omega)]
    congr 1
    omega

theorem read_attempt_faulted_calls (pf : Nat) (xfer : cy_stc_scb_i2c_master_xfer_config_t)
    (w w1 : World σ) (h : read_attempt_faulted P B cfg pf xfer w w1) :
    ∃ new, w1.calls = w.calls ++ new ∧
      bus_actions new = [PdlCall.MasterRead xfer, PdlCall.Disable, PdlCall.Enable] := by
  obtain ⟨_, stat, w2, hw, _, rfl⟩ := h
  obtain ⟨new, h1, h2, _⟩ := wait_complete_calls P B cfg pf _ _ _ _ hw
  refine ⟨[PdlCall.MasterRead xfer] ++ new ++ [PdlCall.Disable, PdlCall.Enable], ?_, ?_⟩
  · simp [Cy_SCB_I2C_Enable, Cy_SCB_I2C_Disable, h1, Cy_SCB_I2C_MasterRead]
  · rw [bus_actions_append, bus_actions_append, h2]; rfl

theorem read_attempt_clean_calls (pf : Nat) (xfer : cy_stc_scb_i2c_master_xfer_config_t)
    (w w1 : World σ) (h : read_attempt_clean P B cfg pf xfer w w1) :
    ∃ new, w1.calls = w.calls ++ new ∧ bus_actions new = [PdlCall.MasterRead xfer] := by
  obtain ⟨_, stat, hw, _⟩ := h
  obtain ⟨new, h1, h2, _⟩ := wait_complete_calls P B cfg pf _ _ _ _ hw
  refine ⟨[PdlCall.MasterRead xfer] ++ new, ?_, ?_⟩
  · simp [h1, Cy_SCB_I2C_MasterRead]
  · rw [bus_actions_append, h2]; rfl

theorem write_attempt_faulted_calls (pf : Nat) (xfer : cy_stc_scb_i2c_master_xfer_config_t)
    (w w1 : World σ) (h : write_attempt_faulted P B cfg pf xfer w w1) :
    ∃ new, w1.calls = w.calls ++ new ∧
      bus_actions new = [PdlCall.MasterWrite xfer, PdlCall.Disable, PdlCall.Enable] := by
  obtain ⟨_, stat, w2, hw, _, rfl⟩ := h
  obtain ⟨new, h1, h2, _⟩ := wait_complete_calls P B cfg pf _ _ _ _ hw
  refine ⟨[PdlCall.MasterWrite xfer] ++ new ++ [PdlCall.Disable, PdlCall.Enable], ?_, ?_⟩
  · simp [Cy_SCB_I2C_Enable, Cy_SCB_I2C_Disable, h1, Cy_SCB_I2C_MasterWrite]
  · rw [bus_actions_append, bus_actions_append, h2]; rfl

theorem write_attempt_clean_calls (pf : Nat) (xfer : cy_stc_scb_i2c_master_xfer_config_t)
    (w w1 : World σ) (h : write_attempt_clean P B cfg pf xfer w w1) :
    ∃ new, w1.calls = w.calls ++ new ∧ bus_actions new = [PdlCall.MasterWrite xfer] := by
  obtain ⟨_, stat, w2, hw, _, _, rfl⟩ := h
  obtain ⟨new, h1, h2, _⟩ := wait_complete_calls P B cfg pf _ _ _ _ hw
  refine ⟨[PdlCall.MasterWrite xfer] ++ new ++ [PdlCall.MasterGetTransferCount], ?_, ?_⟩
  · simp [h1, Cy_SCB_I2C_MasterWrite, Cy_SCB_I2C_MasterGetTransferCount]
  · rw [bus_actions_append, bus_actions_append, h2]; rfl

/-- The bus actions of a chain of `n` attempts that each add the actions
`acts`. -/
theorem chain_calls (R : World σ → World σ → Prop) (acts : List PdlCall)
    (hR : ∀ w w1, R w w1 → ∃ new, w1.calls = w.calls ++ new ∧ bus_actions new = acts) :
    ∀ (n : Nat) (w wn : World σ), chain R n w wn →
      ∃ new, wn.calls = w.calls ++ new ∧
        bus_actions new = (List.replicate n acts).flatten := by
  intro n
  induction n with
  | zero => intro w wn h; cases h; exact ⟨[], by simp, rfl⟩
  | succ n ih =>
    intro w wn h
    obtain ⟨m, hm, hch⟩ := h
    obtain ⟨new1, h1, h2⟩ := hR w m hm
    obtain ⟨new2, h3, h4⟩ := ih m wn hch
    refine ⟨new1 ++ new2, ?_, ?_⟩
    · rw [h3, h1, List.append_assoc]
    · rw [bus_actions_append, h2, h4, List.replicate_succ, List.flatten_cons]

theorem or_eq_zero_iff (a b : Nat) : a ||| b = 0 ↔ a = 0 ∧ b = 0 := by
  constructor
  · intro h
    have key : ∀ i, a.testBit i = false ∧ b.testBit i = false := by
      intro i
      have := congrArg (fun n => Nat.testBit n i) h
      simpa [Nat.testBit_or] using this
    exact ⟨Nat.eq_of_testBit_eq (by intro i; simp [(key i).1]),
      Nat.eq_of_testBit_eq (by intro i; simp [(key i).2])⟩
  · rintro ⟨rfl, rfl⟩; rfl

theorem error_mask_of_addr_nak (stat : Nat)
    (h : (P.CY_SCB_I2C_MASTER_ADDR_NAK &&& stat) ≠ 0) :
    (I2C_CONTROLLER_ERROR_MASK P &&& stat) ≠ 0 := by
  unfold I2C_CONTROLLER_ERROR_MASK
  simp only [Nat.and_distrib_right, ne_eq, or_eq_zero_iff]
  tauto

/-- When every attempt can be made, a chain of any length exists. -/
theorem chain_exists {α : Type} (R : α → α → Prop) (hR : ∀ a, ∃ b, R a b) :
    ∀ (n : Nat) (a : α), ∃ b, chain R n a b := by
  intro n
  induction n with
  | zero => intro a; exact ⟨a, rfl⟩
  | succ n ih =>
    intro a
    obtain ⟨m, hm⟩ := hR a
    obtain ⟨b, hb⟩ := ih m
    exact ⟨b, m, hm, hb⟩

/-- A chain of faulted read attempts that uses up the whole budget ends the
loop, which returns the status of the last issuance. -/
theorem controller_read_loop_exhausted (pf : Nat) (xfer : cy_stc_scb_i2c_master_xfer_config_t)
    (fuel : Nat) :
    ∀ (n : Nat) (w wn : World σ),
      chain (read_attempt_faulted P B cfg pf xfer) (n + 1) w wn → n + 1 ≤ 255 →
      controller_read_loop P B cfg pf xfer (fuel + (n + 1)) (n + 1) w =
        some (P.CY_SCB_I2C_SUCCESS, wn) := by
  intro n
  induction n with
  | zero =>
    intro w wn h _
    obtain ⟨m, hm, hch⟩ := h
    cases hch
    rw [controller_read_loop_succ P B cfg pf xfer fuel _ w wn _ _
      (controller_read_body_faulted P B cfg pf xfer _ w wn hm)]
    simp
  | succ n ih =>
    intro w wn h hle
    obtain ⟨m, hm, hch⟩ := h
    have hstep := controller_read_loop_succ P B cfg pf xfer (fuel + (n + 1)) (n + 1 + 1) w m _ _
      (controller_read_body_faulted P B cfg pf xfer _ w m hm)
    have hdec : (n + 1 + 1 + 256 - 1) % 256 = n + 1 := by omega
    rw [hdec, if_pos (by omega)] at hstep
    rw [show fuel + (n + 1 + 1) = fuel + (n + 1) + 1 from rfl, hstep, ih m wn hch (by omega)]

theorem controller_write_loop_exhausted (pf : Nat) (xfer : cy_stc_scb_i2c_master_xfer_config_t)
    (fuel : Nat) :
    ∀ (n : Nat) (w wn : World σ),
      chain (write_attempt_faulted P B cfg pf xfer) (n + 1) w wn → n + 1 ≤ 255 →
      controller_write_loop P B cfg pf xfer (fuel + (n + 1)) (n + 1) w =
        some (P.CY_SCB_I2C_SUCCESS, wn) := by
  intro n
  induction n with
  | zero =>
    intro w wn h _
    obtain ⟨m, hm, hch⟩ := h
    cases hch
    rw [controller_write_loop_succ P B cfg pf xfer fuel _ w wn _ _
      (controller_write_body_faulted P B cfg pf xfer _ w wn hm)]
    simp
  | succ n ih =>
    intro w wn h hle
    obtain ⟨m, hm, hch⟩ := h
    have hstep := controller_write_loop_succ P B cfg pf xfer (fuel + (n + 1)) (n + 1 + 1) w m _ _
      (controller_write_body_faulted P B cfg pf xfer _ w m hm)
    have hdec : (n + 1 + 1 + 256 - 1) % 256 = n + 1 := by omega
    rw [hdec, if_pos (by omega)] at hstep
    rw [show fuel + (n + 1 + 1) = fuel + (n + 1) + 1 from rfl, hstep, ih m wn hch (by omega)]

/-- One pass through the body of the read loop returns, with the retry budget
either reset to zero or decremented by one. -/
theorem controller_read_body_total (pf : Nat) (xfer : cy_stc_scb_i2c_master_xfer_config_t)
    (rc : Nat) (w : World σ) (hpf : 5 ≤ pf) (h0 : 0 < rc) (h255 : rc ≤ 255) :
    ∃ st rc1 w1, controller_read_body P B cfg pf xfer rc w = some (st, rc1, w1) ∧
      (rc1 = 0 ∨ rc1 = rc - 1) := by
  have hdec : (rc + 256 - 1) % 256 = rc - 1 := by omega
  obtain ⟨stat, w2, hw⟩ := wait_complete_total P B cfg pf I2C_TIMEOUT_COUNT
    (Cy_SCB_I2C_MasterRead B cfg.i2c_base xfer cfg.i2c_context w).2
    (by decide) (by simp only [I2C_TIMEOUT_COUNT]; omega) (by decide)
  unfold controller_read_body
  simp only [hw, hdec]
  split
  · split
    · exact ⟨_, _, _, rfl, Or.inl rfl⟩
    · exact ⟨_, _, _, rfl, Or.inr rfl⟩
  · exact ⟨_, _, _, rfl, Or.inr rfl⟩

/-- One pass through the body of the write loop returns, with the retry budget
either reset to zero or decremented by one. -/
theorem controller_write_body_total (pf : Nat) (xfer : cy_stc_scb_i2c_master_xfer_config_t)
    (rc : Nat) (w : World σ) (hpf : 5 ≤ pf) (h0 : 0 < rc) (h255 : rc ≤ 255) :
    ∃ st rc1 w1, controller_write_body P B cfg pf xfer rc w = some (st, rc1, w1) ∧
      (rc1 = 0 ∨ rc1 = rc - 1) := by
  have hdec : (rc + 256 - 1) % 256 = rc - 1 := by omega
  obtain ⟨stat, w2, hw⟩ := wait_complete_total P B cfg pf I2C_TIMEOUT_COUNT
    (Cy_SCB_I2C_MasterWrite B cfg.i2c_base xfer cfg.i2c_context w).2
    (by decide) (by simp only [I2C_TIMEOUT_COUNT]; omega) (by decide)
  unfold controller_write_body
  simp only [hw, hdec]
  split
  · split
    · split
      · exact ⟨_, _, _, rfl, Or.inl rfl⟩
      · exact ⟨_, _, _, rfl, Or.inr rfl⟩
    · exact ⟨_, _, _, rfl, Or.inr rfl⟩
  · exact ⟨_, _, _, rfl, Or.inr rfl⟩

/-- The read loop returns whenever the fuel covers the retry budget. -/
theorem controller_read_loop_total (pf : Nat) (xfer : cy_stc_scb_i2c_master_xfer_config_t)
    (hpf : 5 ≤ pf) (fuel : Nat) :
    ∀ (rc : Nat) (w : World σ), 0 < rc → rc ≤ fuel → rc ≤ 255 →
      ∃ st w1, controller_read_loop P B cfg pf xfer fuel rc w = some (st, w1) := by
  induction fuel with
  | zero => intro rc w h0 hf; omega
  | succ n ih =>
    intro rc w h0 hf h255
    obtain ⟨st, rc1, w1, hb, hrc⟩ := controller_read_body_total P B cfg pf xfer rc w hpf h0 h255
    rw [controller_read_loop_succ P B cfg pf xfer n rc w w1 st rc1 hb]
    by_cases hz : rc1 = 0
    · exact ⟨st, w1, by simp [hz]⟩
    · rw [if_pos hz]
      exact ih rc1 w1 (by omega) (by omega) (by omega)

/-- The write loop returns whenever the fuel covers the retry budget. -/
theorem controller_write_loop_total (pf : Nat) (xfer : cy_stc_scb_i2c_master_xfer_config_t)
    (hpf : 5 ≤ pf) (fuel : Nat) :
    ∀ (rc : Nat) (w : World σ), 0 < rc → rc ≤ fuel → rc ≤ 255 →
      ∃ st w1, controller_write_loop P B cfg pf xfer fuel rc w = some (st, w1) := by
  induction fuel with
  | zero => intro rc w h0 hf; omega
  | succ n ih =>
    intro rc w h0 hf h255
    obtain ⟨st, rc1, w1, hb, hrc⟩ := controller_write_body_total P B cfg pf xfer rc w hpf h0 h255
    rw [controller_write_loop_succ P B cfg pf xfer n rc w w1 st rc1 hb]
    by_cases hz : rc1 = 0
    · exact ⟨st, w1, by simp [hz]⟩
    · rw [if_pos hz]
      exact ih rc1 w1 (by omega) (by omega) (by omega)

/-- Both executors return for every bus stub, given five units of fuel. -/
theorem executors_total (fuel : Nat) (hfuel : 5 ≤ fuel) (buff : buf_ptr) (buff_size : Nat)
    (w : World σ) :
    (∃ st w1, mtb_ctp_i2c_controller_read P B cfg fuel buff buff_size w = some (st, w1)) ∧
    (∃ st w1, mtb_ctp_i2c_controller_write P B cfg fuel buff buff_size w = some (st, w1)) :=
  ⟨controller_read_loop_total P B cfg fuel _ hfuel fuel RETRY_COUNT w (by decide)
      (by simp only [RETRY_COUNT]; omega) (by decide),
   controller_write_loop_total P B cfg fuel _ hfuel fuel RETRY_COUNT w (by decide)
      (by simp only [RETRY_COUNT]; omega) (by decide)⟩

end ExecutorLemmas

section Executor
variable {σ : Type} (P : Pdl) (B : I2cBus σ) (cfg : mtb_ctp_ft5406_config_t)

/-- Claim C3: if the first k-1 attempts (1 <= k <= 5) are issued successfully
but end with an error-mask bit set, and the k-th attempt is issued successfully
and ends with no error-mask bit set (for a write: and with a transfer count
equal to the requested size), then mtb_ctp_i2c_controller_read and
mtb_ctp_i2c_controller_write return CY_SCB_I2C_SUCCESS, and their bus actions
are exactly k-1 times (issue, disable, enable) followed by the k-th issuance:
k issuances, k-1 recoveries, no further attempt. -/
theorem executor_absorbs_transient_faults (fuel k : Nat) (buff : buf_ptr) (buff_size : Nat)
    (hfuel : 5 ≤ fuel) (hk1 : 1 ≤ k) (hk5 : k ≤ 5) :
    (∀ w wk w1 : World σ,
      chain (read_attempt_faulted P B cfg fuel (xfer_of buff buff_size)) (k - 1) w wk →
      read_attempt_clean P B cfg fuel (xfer_of buff buff_size) wk w1 →
      mtb_ctp_i2c_controller_read P B cfg fuel buff buff_size w =
        some (P.CY_SCB_I2C_SUCCESS, w1) ∧
      ∃ new, w1.calls = w.calls ++ new ∧
        bus_actions new =
          (List.replicate (k - 1) [PdlCall.MasterRead (xfer_of buff buff_size),
            PdlCall.Disable, PdlCall.Enable]).flatten ++
          [PdlCall.MasterRead (xfer_of buff buff_size)]) ∧
    (∀ w wk w1 : World σ,
      chain (write_attempt_faulted P B cfg fuel (xfer_of buff buff_size)) (k - 1) w wk →
      write_attempt_clean P B cfg fuel (xfer_of buff buff_size) wk w1 →
      mtb_ctp_i2c_controller_write P B cfg fuel buff buff_size w =
        some (P.CY_SCB_I2C_SUCCESS, w1) ∧
      ∃ new, w1.calls = w.calls ++ new ∧
        bus_actions new =
          (List.replicate (k - 1) [PdlCall.MasterWrite (xfer_of buff buff_size),
            PdlCall.Disable, PdlCall.Enable]).flatten ++
          [PdlCall.MasterWrite (xfer_of buff buff_size)]) := by
  obtain ⟨f, hf⟩ : ∃ f, fuel = (f + 1) + (k - 1) := ⟨fuel - k, by omega⟩
  constructor
  · intro w wk w1 hch hcl
    constructor
    · show controller_read_loop P B cfg fuel (xfer_of buff buff_size) fuel RETRY_COUNT w = _
      conv_lhs => arg 6; rw [hf]
      rw [controller_read_loop_faults P B cfg fuel _ (f + 1) (k - 1) RETRY_COUNT w wk hch
        (by simp only [RETRY_COUNT]; omega) (by simp only [RETRY_COUNT]; omega),
        controller_read_loop_succ P B cfg fuel _ f _ wk w1 _ _
          (controller_read_body_clean P B cfg fuel _ _ wk w1 hcl)]
      simp
    · obtain ⟨n1, h1, h2⟩ := chain_calls _ _
        (read_attempt_faulted_calls P B cfg fuel (xfer_of buff buff_size)) _ _ _ hch
      obtain ⟨n2, h3, h4⟩ := read_attempt_clean_calls P B cfg fuel _ wk w1 hcl
      exact ⟨n1 ++ n2, by rw [h3, h1, List.append_assoc], by rw [bus_actions_append, h2, h4]⟩
  · intro w wk w1 hch hcl
    constructor
    · show controller_write_loop P B cfg fuel (xfer_of buff buff_size) fuel RETRY_COUNT w = _
      conv_lhs => arg 6; rw [hf]
      rw [controller_write_loop_faults P B cfg fuel _ (f + 1) (k - 1) RETRY_COUNT w wk hch
        (by simp only [RETRY_COUNT]; omega) (by simp only [RETRY_COUNT]; omega),
        controller_write_loop_succ P B cfg fuel _ f _ wk w1 _ _
          (controller_write_body_clean P B cfg fuel _ _ wk w1 hcl)]
      simp
    · obtain ⟨n1, h1, h2⟩ := chain_calls _ _
        (write_attempt_faulted_calls P B cfg fuel (xfer_of buff buff_size)) _ _ _ hch
      obtain ⟨n2, h3, h4⟩ := write_attempt_clean_calls P B cfg fuel _ wk w1 hcl
      exact ⟨n1 ++ n2, by rw [h3, h1, List.append_assoc], by rw [bus_actions_append, h2, h4]⟩

theorem executor_absorbs_transient_faults_witness :
    (mtb_ctp_i2c_controller_read pdl0 script_bus cfg0 5 buf_ptr.touch_buff 32
        (script_state [] [0x00100000, 0x00200000, 0] [] [7, 7] 0 [] []) =
      some (0, script_state [] [] [] [7, 7] 32 [7, 7]
        (faulted_attempt_calls (PdlCall.MasterRead (xfer_of buf_ptr.touch_buff 32)) ++
         faulted_attempt_calls (PdlCall.MasterRead (xfer_of buf_ptr.touch_buff 32)) ++
         [PdlCall.MasterRead (xfer_of buf_ptr.touch_buff 32), PdlCall.MasterGetStatus,
          PdlCall.Delay 1])) ∧
     mtb_ctp_i2c_controller_write pdl0 script_bus cfg0 5 (buf_ptr.stack [0x01]) 1
        (script_state [] [0x00400000, 0x00010000, 0] [] [] 0 [] []) =
      some (0, script_state [] [] [] [] 1 []
        (faulted_attempt_calls (PdlCall.MasterWrite (xfer_of (buf_ptr.stack [0x01]) 1)) ++
         [PdlCall.MasterWrite (xfer_of (buf_ptr.stack [0x01]) 1), PdlCall.MasterGetStatus,
          PdlCall.Delay 1, PdlCall.MasterGetStatus, PdlCall.Delay 1,
          PdlCall.MasterGetTransferCount]))) :=
  ⟨((executor_absorbs_transient_faults pdl0 script_bus cfg0 5 3 buf_ptr.touch_buff 32
      (by decide) (by decide) (by decide)).1
      (script_state [] [0x00100000, 0x00200000, 0] [] [7, 7] 0 [] [])
      (script_state [] [0] [] [7, 7] 32 [7, 7]
        (faulted_attempt_calls (PdlCall.MasterRead (xfer_of buf_ptr.touch_buff 32)) ++
         faulted_attempt_calls (PdlCall.MasterRead (xfer_of buf_ptr.touch_buff 32))))
      _
      ⟨script_state [] [0x00200000, 0] [] [7, 7] 32 [7, 7]
          (faulted_attempt_calls (PdlCall.MasterRead (xfer_of buf_ptr.touch_buff 32))),
        ⟨rfl, 0x00100000, _, rfl, by decide, rfl⟩,
        _, ⟨rfl, 0x00200000, _, rfl, by decide, rfl⟩, rfl⟩
      ⟨rfl, 0, rfl, by decide⟩).1,
   ((executor_absorbs_transient_faults pdl0 script_bus cfg0 5 2 (buf_ptr.stack [0x01]) 1
      (by decide) (by decide) (by decide)).2
      (script_state [] [0x00400000, 0x00010000, 0] [] [] 0 [] [])
      (script_state [] [0x00010000, 0] [] [] 1 []
        (faulted_attempt_calls (PdlCall.MasterWrite (xfer_of (buf_ptr.stack [0x01]) 1))))
      _
      ⟨_, ⟨rfl, 0x00400000, _, rfl, by decide, rfl⟩, rfl⟩
      ⟨rfl, 0, _, rfl, by decide, rfl, rfl⟩).1⟩

/-- Claim C4: with a bus stub whose issuance always succeeds and whose polled
status always has the address-NAK bit set, the read executor and the write
executor return, and their bus actions are exactly five times (issue a
transfer, disable the bus, enable the bus): five issuances, each followed by a
disable and then an enable before the next issuance. -/
theorem executor_retries_five_times_on_addr_nak (fuel : Nat) (buff : buf_ptr) (buff_size : Nat)
    (w : World σ) (hfuel : 5 ≤ fuel)
    (hread : ∀ base xfer ctx hw, (B.MasterRead base xfer ctx hw).1 = P.CY_SCB_I2C_SUCCESS)
    (hwrite : ∀ base xfer ctx hw, (B.MasterWrite base xfer ctx hw).1 = P.CY_SCB_I2C_SUCCESS)
    (hnak : ∀ base ctx hw,
      (P.CY_SCB_I2C_MASTER_ADDR_NAK &&& (B.MasterGetStatus base ctx hw).1) ≠ 0) :
    (∃ st w1 new, mtb_ctp_i2c_controller_read P B cfg fuel buff buff_size w = some (st, w1) ∧
      w1.calls = w.calls ++ new ∧
      bus_actions new =
        (List.replicate 5 [PdlCall.MasterRead (xfer_of buff buff_size),
          PdlCall.Disable, PdlCall.Enable]).flatten) ∧
    (∃ st w1 new, mtb_ctp_i2c_controller_write P B cfg fuel buff buff_size w = some (st, w1) ∧
      w1.calls = w.calls ++ new ∧
      bus_actions new =
        (List.replicate 5 [PdlCall.MasterWrite (xfer_of buff buff_size),
          PdlCall.Disable, PdlCall.Enable]).flatten) := by
  obtain ⟨f, hf⟩ : ∃ f, fuel = f + (4 + 1) := ⟨fuel - 5, by omega⟩
  have hpoll : ∀ v : World σ, ∃ stat v2,
      wait_complete P B cfg fuel I2C_TIMEOUT_COUNT v = some (stat, v2) ∧
      (I2C_CONTROLLER_ERROR_MASK P &&& stat) ≠ 0 := by
    intro v
    obtain ⟨stat, v2, hv⟩ := wait_complete_total P B cfg fuel I2C_TIMEOUT_COUNT v
      (by decide) (by simp only [I2C_TIMEOUT_COUNT]; omega) (by decide)
    obtain ⟨_, _, _, hw, hs⟩ := wait_complete_calls P B cfg fuel _ _ _ _ hv
    exact ⟨stat, v2, hv, error_mask_of_addr_nak P stat (hs ▸ hnak _ _ hw)⟩
  constructor
  · have hR : ∀ v : World σ, ∃ v1,
        read_attempt_faulted P B cfg fuel (xfer_of buff buff_size) v v1 := by
      intro v
      obtain ⟨stat, v2, hv, he⟩ := hpoll
        (Cy_SCB_I2C_MasterRead B cfg.i2c_base (xfer_of buff buff_size) cfg.i2c_context v).2
      exact ⟨_, hread _ _ _ _, stat, v2, hv, he, rfl⟩
    obtain ⟨w5, hch⟩ := chain_exists _ hR 5 w
    obtain ⟨new, h1, h2⟩ := chain_calls _ _
      (read_attempt_faulted_calls P B cfg fuel (xfer_of buff buff_size)) _ _ _ hch
    refine ⟨P.CY_SCB_I2C_SUCCESS, w5, new, ?_, h1, h2⟩
    show controller_read_loop P B cfg fuel (xfer_of buff buff_size) fuel RETRY_COUNT w = _
    conv_lhs => arg 6; rw [hf]
    exact controller_read_loop_exhausted P B cfg fuel _ f 4 w w5 hch (by decide)
  · have hR : ∀ v : World σ, ∃ v1,
        write_attempt_faulted P B cfg fuel (xfer_of buff buff_size) v v1 := by
      intro v
      obtain ⟨stat, v2, hv, he⟩ := hpoll
        (Cy_SCB_I2C_MasterWrite B cfg.i2c_base (xfer_of buff buff_size) cfg.i2c_context v).2
      exact ⟨_, hwrite _ _ _ _, stat, v2, hv, he, rfl⟩
    obtain ⟨w5, hch⟩ := chain_exists _ hR 5 w
    obtain ⟨new, h1, h2⟩ := chain_calls _ _
      (write_attempt_faulted_calls P B cfg fuel (xfer_of buff buff_size)) _ _ _ hch
    refine ⟨P.CY_SCB_I2C_SUCCESS, w5, new, ?_, h1, h2⟩
    show controller_write_loop P B cfg fuel (xfer_of buff buff_size) fuel RETRY_COUNT w = _
    conv_lhs => arg 6; rw [hf]
    exact controller_write_loop_exhausted P B cfg fuel _ f 4 w w5 hch (by decide)

theorem executor_retries_five_times_on_addr_nak_witness :
    (∃ st w1 new, mtb_ctp_i2c_controller_read pdl0 (constant_bus 0x00100000 0) cfg0 5
        buf_ptr.touch_buff 32 (unit_world [] []) = some (st, w1) ∧
      w1.calls = (unit_world [] []).calls ++ new ∧
      bus_actions new =
        (List.replicate 5 [PdlCall.MasterRead (xfer_of buf_ptr.touch_buff 32),
          PdlCall.Disable, PdlCall.Enable]).flatten) ∧
    (∃ st w1 new, mtb_ctp_i2c_controller_write pdl0 (constant_bus 0x00100000 0) cfg0 5
        buf_ptr.touch_buff 32 (unit_world [] []) = some (st, w1) ∧
      w1.calls = (unit_world [] []).calls ++ new ∧
      bus_actions new =
        (List.replicate 5 [PdlCall.MasterWrite (xfer_of buf_ptr.touch_buff 32),
          PdlCall.Disable, PdlCall.Enable]).flatten) :=
  executor_retries_five_times_on_addr_nak pdl0 (constant_bus 0x00100000 0) cfg0 5
    buf_ptr.touch_buff 32 (unit_world [] []) (by decide)
    (fun _ _ _ _ => rfl) (fun _ _ _ _ => rfl)
    (fun _ _ _ => (by decide : (0x00100000 &&& 0x00100000 : Nat) ≠ 0))

theorem bus_recovery_calls (w : World σ) :
    (bus_recovery B cfg w).calls = w.calls ++ [PdlCall.Disable, PdlCall.Enable] := by
  simp [bus_recovery, Cy_SCB_I2C_Enable, Cy_SCB_I2C_Disable]

/-- Claim C5: in mtb_ctp_i2c_controller_write, an attempt that was issued
successfully and whose polling ended with status stat is accepted as success
(the retry budget is reset to zero without recovery, and the loop exits) if and
only if stat has no error-mask bit set and the transfer count reported by the
bus equals the requested size.  An attempt with a fault-free status but a
different transfer count takes the same path as an attempt with a fault flag:
bus disable, bus enable, retry budget decremented by one, and the transfer is
issued again if budget remains. -/
theorem controller_write_accepts_iff_complete (fuel : Nat)
    (xfer : cy_stc_scb_i2c_master_xfer_config_t) (rc : Nat) (w w1 : World σ) (stat : Nat)
    (hrc0 : 0 < rc) (hrc : rc ≤ 255)
    (hissue : (Cy_SCB_I2C_MasterWrite B cfg.i2c_base xfer cfg.i2c_context w).1 =
      P.CY_SCB_I2C_SUCCESS)
    (hpoll : wait_complete P B cfg fuel I2C_TIMEOUT_COUNT
      (Cy_SCB_I2C_MasterWrite B cfg.i2c_base xfer cfg.i2c_context w).2 = some (stat, w1)) :
    (controller_write_body P B cfg fuel xfer rc w =
        some (P.CY_SCB_I2C_SUCCESS, RESET_VAL,
          (Cy_SCB_I2C_MasterGetTransferCount B cfg.i2c_base cfg.i2c_context w1).2) ↔
      ((I2C_CONTROLLER_ERROR_MASK P &&& stat) = 0 ∧
        xfer.bufferSize =
          (Cy_SCB_I2C_MasterGetTransferCount B cfg.i2c_base cfg.i2c_context w1).1)) ∧
    (((I2C_CONTROLLER_ERROR_MASK P &&& stat) = 0 ∧
        xfer.bufferSize =
          (Cy_SCB_I2C_MasterGetTransferCount B cfg.i2c_base cfg.i2c_context w1).1) →
      ∀ f, controller_write_loop P B cfg fuel xfer (f + 1) rc w =
        some (P.CY_SCB_I2C_SUCCESS,
          (Cy_SCB_I2C_MasterGetTransferCount B cfg.i2c_base cfg.i2c_context w1).2)) ∧
    ((I2C_CONTROLLER_ERROR_MASK P &&& stat) ≠ 0 →
      controller_write_body P B cfg fuel xfer rc w =
        some (P.CY_SCB_I2C_SUCCESS, rc - 1, bus_recovery B cfg w1) ∧
      ∀ f, controller_write_loop P B cfg fuel xfer (f + 1) rc w =
        if rc - 1 ≠ 0 then
          controller_write_loop P B cfg fuel xfer f (rc - 1) (bus_recovery B cfg w1)
        else some (P.CY_SCB_I2C_SUCCESS, bus_recovery B cfg w1)) ∧
    (((I2C_CONTROLLER_ERROR_MASK P &&& stat) = 0 ∧
        xfer.bufferSize ≠
          (Cy_SCB_I2C_MasterGetTransferCount B cfg.i2c_base cfg.i2c_context w1).1) →
      controller_write_body P B cfg fuel xfer rc w =
        some (P.CY_SCB_I2C_SUCCESS, rc - 1,
          bus_recovery B cfg
            (Cy_SCB_I2C_MasterGetTransferCount B cfg.i2c_base cfg.i2c_context w1).2) ∧
      ∀ f, controller_write_loop P B cfg fuel xfer (f + 1) rc w =
        if rc - 1 ≠ 0 then
          controller_write_loop P B cfg fuel xfer f (rc - 1)
            (bus_recovery B cfg
              (Cy_SCB_I2C_MasterGetTransferCount B cfg.i2c_base cfg.i2c_context w1).2)
        else some (P.CY_SCB_I2C_SUCCESS,
          bus_recovery B cfg
            (Cy_SCB_I2C_MasterGetTransferCount B cfg.i2c_base cfg.i2c_context w1).2)) := by
  have hdec : (rc + 256 - 1) % 256 = rc - 1 := by omega
  have hgood : ((I2C_CONTROLLER_ERROR_MASK P &&& stat) = 0 ∧
        xfer.bufferSize =
          (Cy_SCB_I2C_MasterGetTransferCount B cfg.i2c_base cfg.i2c_context w1).1) →
      controller_write_body P B cfg fuel xfer rc w =
        some (P.CY_SCB_I2C_SUCCESS, RESET_VAL,
          (Cy_SCB_I2C_MasterGetTransferCount B cfg.i2c_base cfg.i2c_context w1).2) := by
    rintro ⟨he, hc⟩
    unfold controller_write_body
    simp only [hissue, hpoll, if_true, if_pos he, if_pos hc]
  have hfault : (I2C_CONTROLLER_ERROR_MASK P &&& stat) ≠ 0 →
      controller_write_body P B cfg fuel xfer rc w =
        some (P.CY_SCB_I2C_SUCCESS, rc - 1, bus_recovery B cfg w1) := by
    intro he
    unfold controller_write_body
    simp only [hissue, hpoll, if_true, if_neg he, hdec, bus_recovery]
  have hshort : ((I2C_CONTROLLER_ERROR_MASK P &&& stat) = 0 ∧
        xfer.bufferSize ≠
          (Cy_SCB_I2C_MasterGetTransferCount B cfg.i2c_base cfg.i2c_context w1).1) →
      controller_write_body P B cfg fuel xfer rc w =
        some (P.CY_SCB_I2C_SUCCESS, rc - 1,
          bus_recovery B cfg
            (Cy_SCB_I2C_MasterGetTransferCount B cfg.i2c_base cfg.i2c_context w1).2) := by
    rintro ⟨he, hc⟩
    unfold controller_write_body
    simp only [hissue, hpoll, if_true, if_pos he, if_neg hc, hdec, bus_recovery]
  refine ⟨⟨?_, hgood⟩, ?_, ?_, ?_⟩
  · intro hacc
    by_cases he : (I2C_CONTROLLER_ERROR_MASK P &&& stat) = 0
    · by_cases hc : xfer.bufferSize =
          (Cy_SCB_I2C_MasterGetTransferCount B cfg.i2c_base cfg.i2c_context w1).1
      · exact ⟨he, hc⟩
      · exfalso
        rw [hshort ⟨he, hc⟩] at hacc
        simp only [Option.some.injEq, Prod.mk.injEq] at hacc
        have hcalls := congrArg World.calls hacc.2.2
        rw [bus_recovery_calls] at hcalls
        have hl := congrArg List.length hcalls
        simp at hl
    · exfalso
      rw [hfault he] at hacc
      simp only [Option.some.injEq, Prod.mk.injEq] at hacc
      have hcalls := congrArg World.calls hacc.2.2
      rw [bus_recovery_calls] at hcalls
      have hl := congrArg List.length hcalls
      simp [Cy_SCB_I2C_MasterGetTransferCount] at hl
  · intro hg f
    rw [controller_write_loop_succ P B cfg fuel xfer f rc w _ _ _ (hgood hg)]
    simp [RESET_VAL]
  · intro he
    exact ⟨hfault he, fun f => controller_write_loop_succ P B cfg fuel xfer f rc w _ _ _ (hfault he)⟩
  · intro hs
    exact ⟨hshort hs, fun f => controller_write_loop_succ P B cfg fuel xfer f rc w _ _ _ (hshort hs)⟩

theorem controller_write_accepts_iff_complete_witness :
    controller_write_body pdl0 script_bus cfg0 5 (xfer_of (buf_ptr.stack [0x01, 0x02]) 2) 5
        (script_state [] [0] [1] [] 0 [] []) =
      some (0, 4, script_state [] [] [] [] 2 []
        [PdlCall.MasterWrite (xfer_of (buf_ptr.stack [0x01, 0x02]) 2), PdlCall.MasterGetStatus,
         PdlCall.Delay 1, PdlCall.MasterGetTransferCount, PdlCall.Disable, PdlCall.Enable]) :=
  ((controller_write_accepts_iff_complete pdl0 script_bus cfg0 5
      (xfer_of (buf_ptr.stack [0x01, 0x02]) 2) 5
      (script_state [] [0] [1] [] 0 [] [])
      (script_state [] [] [1] [] 2 []
        [PdlCall.MasterWrite (xfer_of (buf_ptr.stack [0x01, 0x02]) 2), PdlCall.MasterGetStatus,
         PdlCall.Delay 1])
      0 (by decide) (by decide) (by rfl) (by rfl)).2.2.2 ⟨by decide, by decide⟩).1.trans (by rfl)

/-- Claim C2, evaluated on persistent faults: with a stub whose issuance
always succeeds and whose status always reports an address NAK, both executors
make five faulted attempts and then return CY_SCB_I2C_SUCCESS; so does the
write executor when the status is fault-free and every transfer count (0) is
short of the requested size (2).  The returned `i2c_status` is the result of
the last issuance; the error branch never assigns it. -/
theorem executor_returns_success_after_persistent_fault :
    mtb_ctp_i2c_controller_read pdl0 (constant_bus 0x00100000 0) cfg0 5 buf_ptr.touch_buff 32
        (unit_world [] []) =
      some (pdl0.CY_SCB_I2C_SUCCESS, unit_world []
        (List.replicate 5
          (faulted_attempt_calls (PdlCall.MasterRead (xfer_of buf_ptr.touch_buff 32)))).flatten) ∧
    mtb_ctp_i2c_controller_write pdl0 (constant_bus 0x00100000 0) cfg0 5
        (buf_ptr.stack [0x00, 0x00]) 2 (unit_world [] []) =
      some (pdl0.CY_SCB_I2C_SUCCESS, unit_world []
        (List.replicate 5
          (faulted_attempt_calls
            (PdlCall.MasterWrite (xfer_of (buf_ptr.stack [0x00, 0x00]) 2)))).flatten) ∧
    mtb_ctp_i2c_controller_write pdl0 (constant_bus 0 0) cfg0 5
        (buf_ptr.stack [0x00, 0x00]) 2 (unit_world [] []) =
      some (pdl0.CY_SCB_I2C_SUCCESS, unit_world []
        (List.replicate 5
          [PdlCall.MasterWrite (xfer_of (buf_ptr.stack [0x00, 0x00]) 2), PdlCall.MasterGetStatus,
           PdlCall.Delay 1, PdlCall.MasterGetTransferCount, PdlCall.Disable,
           PdlCall.Enable]).flatten) := by
  refine ⟨?_, ?_, ?_⟩ <;> rfl

/-- Claim C10, evaluated on a stalled transfer: with a stub whose issuance
succeeds and whose status reports busy (and no error bit) at every poll, the
read executor polls five times and then returns CY_SCB_I2C_SUCCESS after a
single issuance, with no disable or enable call; the write executor does the
same when the reported transfer count equals the requested size. -/
theorem executor_accepts_stalled_transfer :
    (pdl0.CY_SCB_I2C_MASTER_BUSY &&& 0x00010000) ≠ 0 ∧
    (I2C_CONTROLLER_ERROR_MASK pdl0 &&& 0x00010000) = 0 ∧
    mtb_ctp_i2c_controller_read pdl0 (constant_bus 0x00010000 0) cfg0 5 buf_ptr.touch_buff 32
        (unit_world [] []) =
      some (pdl0.CY_SCB_I2C_SUCCESS, unit_world []
        ([PdlCall.MasterRead (xfer_of buf_ptr.touch_buff 32)] ++
          (List.replicate 5 [PdlCall.MasterGetStatus, PdlCall.Delay 1]).flatten)) ∧
    mtb_ctp_i2c_controller_write pdl0 (constant_bus 0x00010000 1) cfg0 5
        (buf_ptr.stack [0x01]) 1 (unit_world [] []) =
      some (pdl0.CY_SCB_I2C_SUCCESS, unit_world []
        ([PdlCall.MasterWrite (xfer_of (buf_ptr.stack [0x01]) 1)] ++
          (List.replicate 5 [PdlCall.MasterGetStatus, PdlCall.Delay 1]).flatten ++
          [PdlCall.MasterGetTransferCount])) := by
  refine ⟨by decide, by decide, ?_, ?_⟩ <;> rfl

end Executor


section TouchDecoding
variable {σ : Type} (P : Pdl) (B : I2cBus σ) (cfg : mtb_ctp_ft5406_config_t)

theorem coordinate_bound (h l : Nat) (hl : l < 256) : ((h &&& 0x0F) <<< 8) ||| l ≤ 4095 := by
  have h1 : h &&& 0x0F ≤ 0x0F := Nat.and_le_right
  have h2 : l < 2 ^ 8 := by omega
  rw [Nat.shiftLeft_eq, Nat.mul_comm, ← Nat.mul_add_lt_is_or h2]
  omega

/-- Claim C16: for every raw touch point whose four data bytes are bytes,
TOUCH_POINT_GET_EVENT yields one of the four enum values, TOUCH_POINT_GET_ID a
value in 0..15, and TOUCH_POINT_GET_X and TOUCH_POINT_GET_Y values in 0..4095
(non-negative as int); so storing them in the uint8 and uint16 fields of an
output point truncates nothing. -/
theorem decoded_values_in_range (T : mtb_ctp_ft5406_touch_point_t)
    (hXH : T.XH < 256) (hXL : T.XL < 256) (hYH : T.YH < 256) (hYL : T.YL < 256) :
    (TOUCH_POINT_GET_EVENT T = MTB_CTP_TOUCH_DOWN ∨ TOUCH_POINT_GET_EVENT T = MTB_CTP_TOUCH_UP ∨
      TOUCH_POINT_GET_EVENT T = MTB_CTP_TOUCH_CONTACT ∨
      TOUCH_POINT_GET_EVENT T = MTB_CTP_TOUCH_RESERVED) ∧
    TOUCH_POINT_GET_ID T ≤ 15 ∧
    (0 ≤ TOUCH_POINT_GET_X T ∧ TOUCH_POINT_GET_X T ≤ 4095) ∧
    (0 ≤ TOUCH_POINT_GET_Y T ∧ TOUCH_POINT_GET_Y T ≤ 4095) ∧
    TOUCH_POINT_GET_ID T % 256 = TOUCH_POINT_GET_ID T ∧
    (((TOUCH_POINT_GET_X T % 65536).toNat : Nat) : Int) = TOUCH_POINT_GET_X T ∧
    (((TOUCH_POINT_GET_Y T % 65536).toNat : Nat) : Int) = TOUCH_POINT_GET_Y T := by
  have hE : TOUCH_POINT_GET_EVENT T ≤ 3 := by
    simp only [TOUCH_POINT_GET_EVENT, Nat.shiftRight_eq_div_pow]
    omega
  have hI : TOUCH_POINT_GET_ID T ≤ 15 := by
    simp only [TOUCH_POINT_GET_ID, Nat.shiftRight_eq_div_pow]
    omega
  have hX : TOUCH_POINT_GET_X T = ((((T.XH &&& 0x0F) <<< 8) ||| T.XL : Nat) : Int) := by
    simp only [TOUCH_POINT_GET_X]
    rw [coordinate_value _ _ hXH hXL]
  have hY : TOUCH_POINT_GET_Y T = ((((T.YH &&& 0x0F) <<< 8) ||| T.YL : Nat) : Int) := by
    simp only [TOUCH_POINT_GET_Y]
    rw [coordinate_value _ _ hYH hYL]
  have hXb := coordinate_bound T.XH T.XL hXL
  have hYb := coordinate_bound T.YH T.YL hYL
  refine ⟨?_, hI, ?_, ?_, ?_, ?_, ?_⟩
  · simp only [MTB_CTP_TOUCH_DOWN, MTB_CTP_TOUCH_UP, MTB_CTP_TOUCH_CONTACT,
      MTB_CTP_TOUCH_RESERVED]
    omega
  · rw [hX]; omega
  · rw [hY]; omega
  · omega
  · rw [hX]; omega
  · rw [hY]; omega

theorem decoded_values_in_range_witness :
    TOUCH_POINT_GET_ID (encode_touch_point 3 0xFFF 0xFFF 15 3 0xFF 0xFF) ≤ 15 ∧
    TOUCH_POINT_GET_X (encode_touch_point 3 0xFFF 0xFFF 15 3 0xFF 0xFF) ≤ 4095 ∧
    TOUCH_POINT_GET_Y (encode_touch_point 3 0xFFF 0xFFF 15 3 0xFF 0xFF) ≤ 4095 :=
  ⟨(decoded_values_in_range (encode_touch_point 3 0xFFF 0xFFF 15 3 0xFF 0xFF)
      (by decide) (by decide) (by decide) (by decide)).2.1,
   (decoded_values_in_range (encode_touch_point 3 0xFFF 0xFFF 15 3 0xFF 0xFF)
      (by decide) (by decide) (by decide) (by decide)).2.2.1.2,
   (decoded_values_in_range (encode_touch_point 3 0xFFF 0xFFF 15 3 0xFF 0xFF)
      (by decide) (by decide) (by decide) (by decide)).2.2.2.1.2⟩

/-- Claim C19: whenever the raw read succeeds, mtb_ctp_ft5406_get_multi_touch
returns success with all five entries of touch_array equal to
{Reserved, 0, 0, 0}, whatever the frame and the previous contents of the array
are, and with touch_count equal to the count byte if it is at most 5 and to 0
otherwise. -/
theorem get_multi_touch_clears_all_slots (fuel : Nat) (out : MultiTouch) (w w1 : World σ)
    (hread : mtb_ctp_ft5406_read_raw_touch_data P B cfg fuel buf_ptr.touch_buff
      MTB_CTP_FT5406_TOUCH_DATA_LEN w = some (P.CY_SCB_I2C_SUCCESS, w1))
    (harr : out.touch_array.length = 5) :
    mtb_ctp_ft5406_get_multi_touch P B cfg fuel out w =
      some (P.CY_SCB_I2C_SUCCESS,
        { touch_count :=
            ((if 5 < w1.hw.touch_buff.getD 1 0 then 0 else w1.hw.touch_buff.getD 1 0 : Nat) : Int)
          touch_array := List.replicate 5 cleared_point },
        { w1 with hw := { w1.hw with touch_buff :=
            if 5 < w1.hw.touch_buff.getD 1 0 then w1.hw.touch_buff.set 1 0
            else w1.hw.touch_buff } }) := by
  unfold mtb_ctp_ft5406_get_multi_touch
  rw [hread]
  simp only [if_true, touch_detection_count, MTB_CTP_FT5406_MAX_TOUCHES, RESET_VAL]
  rw [clear_touch_array_eq _ (by rw [decode_valid_touch_points_length]; exact harr)]
  by_cases hc : 5 < w1.hw.touch_buff.getD 1 0
  · have hlen : 1 < w1.hw.touch_buff.length := by
      by_contra hn
      rw [List.getD_eq_default _ _ (by omega)] at hc
      omega
    have hz : (w1.hw.touch_buff.set 1 0).getD 1 0 = 0 := by
      rw [List.getD_eq_getElem _ _ (by simpa using hlen)]
      simp
    simp only [if_pos hc, hz]
  · simp only [if_neg hc]

theorem get_multi_touch_clears_all_slots_witness :
    mtb_ctp_ft5406_get_multi_touch pdl0 script_bus cfg0 5
        { touch_count := 0, touch_array := List.replicate 5 ⟨2, 1, 640, 480⟩ }
        (script_world [] [] [] ([0x00, 0x02, 0x81, 0x10, 0x02, 0x20, 0, 0, 0x82, 0x30, 0x12, 0x40]
          ++ List.replicate 20 0) (List.replicate 32 0)) =
      some (0, { touch_count := 2, touch_array := List.replicate 5 cleared_point },
        delivered ([0x00, 0x02, 0x81, 0x10, 0x02, 0x20, 0, 0, 0x82, 0x30, 0x12, 0x40]
          ++ List.replicate 20 0)) :=
  (get_multi_touch_clears_all_slots pdl0 script_bus cfg0 5
    { touch_count := 0, touch_array := List.replicate 5 ⟨2, 1, 640, 480⟩ }
    (script_world [] [] [] ([0x00, 0x02, 0x81, 0x10, 0x02, 0x20, 0, 0, 0x82, 0x30, 0x12, 0x40]
      ++ List.replicate 20 0) (List.replicate 32 0))
    (delivered ([0x00, 0x02, 0x81, 0x10, 0x02, 0x20, 0, 0, 0x82, 0x30, 0x12, 0x40]
      ++ List.replicate 20 0))
    (by rfl) (by rfl)).trans (by rfl)

/-- Claim C11, refuted on the all-zero frame: its count byte is 0, and
mtb_ctp_ft5406_get_single_touch, which never reads the count byte, decodes
slot 0 as event Down with x = 0 and y = 0; it overwrites the caller's values
-7 and 1234 and does not report Reserved. -/
theorem get_single_touch_ignores_count_counterexample :
    touch_detection_count (List.replicate 32 0) = 0 ∧
    mtb_ctp_ft5406_get_single_touch pdl0 script_bus cfg0 5
        { touch_event := 1, touch_x := -7, touch_y := 1234 }
        (script_world [] [] [] (List.replicate 32 0) (List.replicate 32 0xFF)) =
      some (0, { touch_event := MTB_CTP_TOUCH_DOWN, touch_x := 0, touch_y := 0 },
        delivered (List.replicate 32 0)) ∧
    ¬ ∃ st w1, mtb_ctp_ft5406_get_single_touch pdl0 script_bus cfg0 5
        { touch_event := 1, touch_x := -7, touch_y := 1234 }
        (script_world [] [] [] (List.replicate 32 0) (List.replicate 32 0xFF)) =
      some (st, { touch_event := MTB_CTP_TOUCH_RESERVED, touch_x := -7, touch_y := 1234 }, w1) := by
  have h : mtb_ctp_ft5406_get_single_touch pdl0 script_bus cfg0 5
        { touch_event := 1, touch_x := -7, touch_y := 1234 }
        (script_world [] [] [] (List.replicate 32 0) (List.replicate 32 0xFF)) =
      some (0, { touch_event := MTB_CTP_TOUCH_DOWN, touch_x := 0, touch_y := 0 },
        delivered (List.replicate 32 0)) := by rfl
  refine ⟨by rfl, h, ?_⟩
  rintro ⟨st, w1, hc⟩
  rw [h] at hc
  simp only [Option.some.injEq, Prod.mk.injEq] at hc
  have hev := congrArg SingleTouch.touch_event hc.2.1
  exact absurd hev (by decide)

/-- Claim C11 as amended: for every frame, whatever its count byte (so also
when it is 0 or greater than 5), when the bus transactions succeed,
mtb_ctp_ft5406_get_single_touch reports the event decoded from the top two bits
of frame byte 2; it leaves the x and y outputs unwritten when that event is Up
or Reserved, and writes the decoded slot-0 coordinates when it is Down or
Contact. -/
theorem get_single_touch_with_invalid_count (fuel : Nat) (out : SingleTouch) (w w1 : World σ)
    (hread : mtb_ctp_ft5406_read_raw_touch_data P B cfg fuel buf_ptr.touch_buff
      MTB_CTP_FT5406_TOUCH_DATA_LEN w = some (P.CY_SCB_I2C_SUCCESS, w1))
    (hbyte : w1.hw.touch_buff.getD 2 0 < 256) :
    mtb_ctp_ft5406_get_single_touch P B cfg fuel out w =
      some (P.CY_SCB_I2C_SUCCESS,
        (if w1.hw.touch_buff.getD 2 0 >>> 6 = MTB_CTP_TOUCH_UP ∨
            w1.hw.touch_buff.getD 2 0 >>> 6 = MTB_CTP_TOUCH_RESERVED then
          { touch_event := w1.hw.touch_buff.getD 2 0 >>> 6
            touch_x := out.touch_x
            touch_y := out.touch_y }
        else
          { touch_event := w1.hw.touch_buff.getD 2 0 >>> 6
            touch_x := TOUCH_POINT_GET_X (touch_points w1.hw.touch_buff 0)
            touch_y := TOUCH_POINT_GET_Y (touch_points w1.hw.touch_buff 0) }), w1) := by
  have hlt : w1.hw.touch_buff.getD 2 0 >>> 6 < 4 := by
    rw [Nat.shiftRight_eq_div_pow]; omega
  have hE : TOUCH_POINT_GET_EVENT (touch_points w1.hw.touch_buff 0) =
      w1.hw.touch_buff.getD 2 0 >>> 6 := by
    simp only [TOUCH_POINT_GET_EVENT, touch_points]
    exact Nat.mod_eq_of_lt (Nat.lt_of_lt_of_le hlt (by decide))
  unfold mtb_ctp_ft5406_get_single_touch
  rw [hread]
  simp only [if_true, hE]
  by_cases hev : w1.hw.touch_buff.getD 2 0 >>> 6 = MTB_CTP_TOUCH_UP ∨
      w1.hw.touch_buff.getD 2 0 >>> 6 = MTB_CTP_TOUCH_RESERVED
  · have hno : ¬ (MTB_CTP_TOUCH_DOWN = w1.hw.touch_buff.getD 2 0 >>> 6 ∨
        MTB_CTP_TOUCH_CONTACT = w1.hw.touch_buff.getD 2 0 >>> 6) := by
      simp only [MTB_CTP_TOUCH_DOWN, MTB_CTP_TOUCH_CONTACT, MTB_CTP_TOUCH_UP,
        MTB_CTP_TOUCH_RESERVED] at hev ⊢
      omega
    rw [if_neg hno, if_pos hev]
  · have hyes : MTB_CTP_TOUCH_DOWN = w1.hw.touch_buff.getD 2 0 >>> 6 ∨
        MTB_CTP_TOUCH_CONTACT = w1.hw.touch_buff.getD 2 0 >>> 6 := by
      simp only [MTB_CTP_TOUCH_DOWN, MTB_CTP_TOUCH_CONTACT, MTB_CTP_TOUCH_UP,
        MTB_CTP_TOUCH_RESERVED] at hev ⊢
      omega
    rw [if_pos hyes, if_neg hev]

theorem get_single_touch_with_invalid_count_witness :
    mtb_ctp_ft5406_get_single_touch pdl0 script_bus cfg0 5
        { touch_event := 1, touch_x := -7, touch_y := 1234 }
        (script_world [] [] [] ([0x00, 0x07, 0x8A, 0xBC, 0x31, 0x23] ++ List.replicate 26 0)
          (List.replicate 32 0)) =
      some (0, { touch_event := MTB_CTP_TOUCH_CONTACT, touch_x := ((0xABC : Nat) : Int),
                 touch_y := ((0x123 : Nat) : Int) },
        delivered ([0x00, 0x07, 0x8A, 0xBC, 0x31, 0x23] ++ List.replicate 26 0)) :=
  (get_single_touch_with_invalid_count pdl0 script_bus cfg0 5
    { touch_event := 1, touch_x := -7, touch_y := 1234 }
    (script_world [] [] [] ([0x00, 0x07, 0x8A, 0xBC, 0x31, 0x23] ++ List.replicate 26 0)
      (List.replicate 32 0))
    (delivered ([0x00, 0x07, 0x8A, 0xBC, 0x31, 0x23] ++ List.replicate 26 0))
    (by rfl) (by decide)).trans (by rfl)

end TouchDecoding

section Polling
variable {σ : Type} (P : Pdl) (B : I2cBus σ) (cfg : mtb_ctp_ft5406_config_t)

theorem poll_calls_succ (j : Nat) :
    poll_calls (j + 1) =
      [PdlCall.MasterGetStatus, PdlCall.Delay I2C_DELAY_MS] ++ poll_calls j := by
  simp [poll_calls, List.replicate_succ]

theorem after_polls_succ (j : Nat) (w : World σ) :
    after_polls B cfg (j + 1) w =
      after_polls B cfg j
        (Cy_SysLib_Delay B I2C_DELAY_MS
          (Cy_SCB_I2C_MasterGetStatus B cfg.i2c_base cfg.i2c_context w).2) := by
  simp [after_polls, poll_calls_succ, Function.iterate_succ_apply, poll_step,
    Cy_SysLib_Delay, Cy_SCB_I2C_MasterGetStatus]

/-- The poll loop stops after poll `j` when the polls before it report busy
and poll `j` either is the last one of the budget or does not report busy. -/
theorem wait_complete_polls (fuel : Nat) :
    ∀ (t j : Nat) (w : World σ), 1 ≤ j → j ≤ t → t ≤ fuel → t < 2 ^ 32 →
      (∀ i, i + 1 < j → (P.CY_SCB_I2C_MASTER_BUSY &&& poll_status B cfg w.hw i) ≠ 0) →
      (j = t ∨ (P.CY_SCB_I2C_MASTER_BUSY &&& poll_status B cfg w.hw (j - 1)) = 0) →
      wait_complete P B cfg fuel t w =
        some (poll_status B cfg w.hw (j - 1), after_polls B cfg j w) := by
  induction fuel with
  | zero => intro t j w h1 h2 h3; omega
  | succ n ih =>
    intro t j w h1 hjt htf h32 hbusy hstop
    have hdec : (t + 2 ^ 32 - 1) % 2 ^ 32 = t - 1 := by omega
    rw [wait_complete, hdec]
    by_cases hj : j = 1
    · subst hj
      have hcond : ¬ ((P.CY_SCB_I2C_MASTER_BUSY &&&
          (Cy_SCB_I2C_MasterGetStatus B cfg.i2c_base cfg.i2c_context w).1) ≠ 0 ∧ t - 1 ≠ 0) := by
        rintro ⟨hb, ht⟩
        rcases hstop with h | h
        · omega
        · exact hb h
      rw [if_neg hcond]
      simp [poll_status, after_polls, poll_calls, poll_step, Cy_SysLib_Delay,
        Cy_SCB_I2C_MasterGetStatus]
    · have hb0 := hbusy 0 (by omega)
      have hcond : (P.CY_SCB_I2C_MASTER_BUSY &&&
          (Cy_SCB_I2C_MasterGetStatus B cfg.i2c_base cfg.i2c_context w).1) ≠ 0 ∧ t - 1 ≠ 0 :=
        ⟨hb0, by omega⟩
      rw [if_pos hcond]
      obtain ⟨j1, rfl⟩ : ∃ j1, j = j1 + 1 := ⟨j - 1, by omega⟩
      have hshift : ∀ i, poll_status B cfg
          (Cy_SysLib_Delay B I2C_DELAY_MS
            (Cy_SCB_I2C_MasterGetStatus B cfg.i2c_base cfg.i2c_context w).2).hw i =
          poll_status B cfg w.hw (i + 1) := by
        intro i
        simp [poll_status, Function.iterate_succ_apply, poll_step, Cy_SysLib_Delay,
          Cy_SCB_I2C_MasterGetStatus]
      rw [ih (t - 1) j1 _ (by omega) (by omega) (by omega) (by omega)
        (by intro i hi; rw [hshift]; exact hbusy (i + 1) (by omega))
        (by
          rcases hstop with h | h
          · left; omega
          · right; rw [hshift]
            have : j1 - 1 + 1 = j1 + 1 - 1 := by omega
            rw [this]; exact h),
        hshift, after_polls_succ]
      have : j1 - 1 + 1 = j1 + 1 - 1 := by omega
      rw [this]

/-- Claim C18: after a successful issuance the executor polls at least once;
it makes exactly j polls (1 <= j <= 5), each followed by one delay of
I2C_DELAY_MS, when the first j-1 polls report busy and poll j either has the
busy bit clear or is the fifth; and the status that both executors then
classify against the error mask is the one returned by poll j. -/
theorem attempt_polls_until_idle (fuel j : Nat) (w : World σ)
    (hfuel : 5 ≤ fuel) (hj1 : 1 ≤ j) (hj5 : j ≤ 5)
    (hbusy : ∀ i, i + 1 < j → (P.CY_SCB_I2C_MASTER_BUSY &&& poll_status B cfg w.hw i) ≠ 0)
    (hstop : j = 5 ∨ (P.CY_SCB_I2C_MASTER_BUSY &&& poll_status B cfg w.hw (j - 1)) = 0) :
    wait_complete P B cfg fuel I2C_TIMEOUT_COUNT w =
      some (poll_status B cfg w.hw (j - 1), after_polls B cfg j w) ∧
    (after_polls B cfg j w).calls = w.calls ++ poll_calls j ∧
    (∀ (xfer : cy_stc_scb_i2c_master_xfer_config_t) (rc : Nat) (w0 : World σ),
      0 < rc → rc ≤ 255 →
      Cy_SCB_I2C_MasterRead B cfg.i2c_base xfer cfg.i2c_context w0 =
        (P.CY_SCB_I2C_SUCCESS, w) →
      controller_read_body P B cfg fuel xfer rc w0 =
        if (I2C_CONTROLLER_ERROR_MASK P &&& poll_status B cfg w.hw (j - 1)) = 0 then
          some (P.CY_SCB_I2C_SUCCESS, RESET_VAL, after_polls B cfg j w)
        else
          some (P.CY_SCB_I2C_SUCCESS, rc - 1, bus_recovery B cfg (after_polls B cfg j w))) ∧
    (∀ (xfer : cy_stc_scb_i2c_master_xfer_config_t) (rc : Nat) (w0 : World σ),
      0 < rc → rc ≤ 255 →
      Cy_SCB_I2C_MasterWrite B cfg.i2c_base xfer cfg.i2c_context w0 =
        (P.CY_SCB_I2C_SUCCESS, w) →
      controller_write_body P B cfg fuel xfer rc w0 =
        if (I2C_CONTROLLER_ERROR_MASK P &&& poll_status B cfg w.hw (j - 1)) = 0 then
          if xfer.bufferSize =
              (Cy_SCB_I2C_MasterGetTransferCount B cfg.i2c_base cfg.i2c_context
                (after_polls B cfg j w)).1 then
            some (P.CY_SCB_I2C_SUCCESS, RESET_VAL,
              (Cy_SCB_I2C_MasterGetTransferCount B cfg.i2c_base cfg.i2c_context
                (after_polls B cfg j w)).2)
          else
            some (P.CY_SCB_I2C_SUCCESS, rc - 1,
              bus_recovery B cfg
                (Cy_SCB_I2C_MasterGetTransferCount B cfg.i2c_base cfg.i2c_context
                  (after_polls B cfg j w)).2)
        else
          some (P.CY_SCB_I2C_SUCCESS, rc - 1, bus_recovery B cfg (after_polls B cfg j w))) := by
  have hpoll : wait_complete P B cfg fuel I2C_TIMEOUT_COUNT w =
      some (poll_status B cfg w.hw (j - 1), after_polls B cfg j w) :=
    wait_complete_polls P B cfg fuel I2C_TIMEOUT_COUNT j w hj1
      (by simp only [I2C_TIMEOUT_COUNT]; omega) (by simp only [I2C_TIMEOUT_COUNT]; omega)
      (by decide) hbusy (by simpa only [I2C_TIMEOUT_COUNT] using hstop)
  refine ⟨hpoll, rfl, ?_, ?_⟩
  · intro xfer rc w0 h0 h255 hissue
    have hdec : (rc + 256 - 1) % 256 = rc - 1 := by omega
    unfold controller_read_body
    simp only [hissue, hpoll, if_true, hdec, bus_recovery]
  · intro xfer rc w0 h0 h255 hissue
    have hdec : (rc + 256 - 1) % 256 = rc - 1 := by omega
    unfold controller_write_body
    simp only [hissue, hpoll, if_true, hdec, bus_recovery]

theorem attempt_polls_until_idle_witness :
    wait_complete pdl0 script_bus cfg0 5 I2C_TIMEOUT_COUNT
        (script_state [] [0x00010000, 0x00010000, 0] [] [] 0 [] []) =
      some (0, script_state [] [] [] [] 0 []
        [PdlCall.MasterGetStatus, PdlCall.Delay 1, PdlCall.MasterGetStatus, PdlCall.Delay 1,
         PdlCall.MasterGetStatus, PdlCall.Delay 1]) :=
  (attempt_polls_until_idle pdl0 script_bus cfg0 5 3
    (script_state [] [0x00010000, 0x00010000, 0] [] [] 0 [] [])
    (by decide) (by decide) (by decide)
    (fun i hi => match i, hi with
      | 0, _ => by decide
      | 1, _ => by decide)
    (Or.inr (by decide))).1.trans (by rfl)

end Polling

section Bounds
variable {σ : Type} (P : Pdl) (B : I2cBus σ) (cfg : mtb_ctp_ft5406_config_t)

theorem total_append (f : PdlCall → Nat) (a b : List PdlCall) :
    total f (a ++ b) = total f a + total f b := by
  simp [total]

theorem total_poll_calls (f : PdlCall → Nat) (j : Nat) :
    total f (poll_calls j) = j * (f PdlCall.MasterGetStatus + f (PdlCall.Delay I2C_DELAY_MS)) := by
  induction j with
  | zero => simp [poll_calls, total]
  | succ j ih =>
    rw [poll_calls_succ, total_append, ih]
    simp [total]
    ring

theorem total_flatten_le (f : PdlCall → Nat) (b : Nat) (segs : List (List PdlCall))
    (h : ∀ seg ∈ segs, total f seg ≤ b) : total f segs.flatten ≤ segs.length * b := by
  induction segs with
  | nil => simp [total]
  | cons seg segs ih =>
    rw [List.flatten_cons, total_append, List.length_cons, Nat.succ_mul]
    have h1 := h seg (List.mem_cons_self _ _)
    have h2 := ih (fun s hs => h s (List.mem_cons_of_mem _ hs))
    omega

/-- The weight of the calls of one attempt. -/
theorem attempt_shape_total (f : PdlCall → Nat) (issue : PdlCall) (tails : List (List PdlCall))
    (c : Nat) (hc : ∀ tail ∈ tails, total f tail ≤ c) (seg : List PdlCall)
    (h : attempt_shape issue tails seg) :
    total f seg ≤
      f issue + 5 * (f PdlCall.MasterGetStatus + f (PdlCall.Delay I2C_DELAY_MS)) + c := by
  rcases h with rfl | ⟨j, tail, _, hj, ht, rfl⟩
  · simp [total]
    omega
  · rw [total_append, total_append, total_poll_calls]
    have h1 := hc tail ht
    have h2 : j * (f PdlCall.MasterGetStatus + f (PdlCall.Delay I2C_DELAY_MS)) ≤
        5 * (f PdlCall.MasterGetStatus + f (PdlCall.Delay I2C_DELAY_MS)) :=
      Nat.mul_le_mul_right _ hj
    have h3 : total f [issue] = f issue := by simp [total]
    omega

/-- Whenever the fuel covers `timeout_count`, the poll loop returns after
between one and `timeout_count` polls, each followed by one delay. -/
theorem wait_complete_shape (fuel : Nat) :
    ∀ (t : Nat) (w : World σ), 0 < t → t ≤ fuel → t < 2 ^ 32 →
      ∃ j stat w1, 1 ≤ j ∧ j ≤ t ∧ wait_complete P B cfg fuel t w = some (stat, w1) ∧
        w1.calls = w.calls ++ poll_calls j := by
  induction fuel with
  | zero => intro t w h0 hf; omega
  | succ n ih =>
    intro t w h0 hf h32
    have hdec : (t + 2 ^ 32 - 1) % 2 ^ 32 = t - 1 := by omega
    rw [wait_complete, hdec]
    split
    · obtain ⟨j, stat, w1, h1, h2, h3, h4⟩ := ih (t - 1)
        (Cy_SysLib_Delay B I2C_DELAY_MS
          (Cy_SCB_I2C_MasterGetStatus B cfg.i2c_base cfg.i2c_context w).2)
        (by omega) (by omega) (by omega)
      refine ⟨j + 1, stat, w1, by omega, by omega, h3, ?_⟩
      rw [h4, poll_calls_succ]
      simp [Cy_SysLib_Delay, Cy_SCB_I2C_MasterGetStatus]
    · refine ⟨1, _, _, le_refl _, h0, rfl, ?_⟩
      simp [poll_calls, Cy_SysLib_Delay, Cy_SCB_I2C_MasterGetStatus]

/-- One pass through the body of the read loop returns, and its calls have the
shape of a read attempt. -/
theorem controller_read_body_shape (pf : Nat) (xfer : cy_stc_scb_i2c_master_xfer_config_t)
    (rc : Nat) (w : World σ) (hpf : 5 ≤ pf) (h0 : 0 < rc) (h255 : rc ≤ 255) :
    ∃ st rc1 w1 seg, controller_read_body P B cfg pf xfer rc w = some (st, rc1, w1) ∧
      (rc1 = 0 ∨ rc1 = rc - 1) ∧ w1.calls = w.calls ++ seg ∧
      attempt_shape (PdlCall.MasterRead xfer) read_tails seg := by
  have hdec : (rc + 256 - 1) % 256 = rc - 1 := by omega
  obtain ⟨j, stat, w2, hj1, hj5, hw, hcalls⟩ := wait_complete_shape P B cfg pf I2C_TIMEOUT_COUNT
    (Cy_SCB_I2C_MasterRead B cfg.i2c_base xfer cfg.i2c_context w).2
    (by decide) (by simp only [I2C_TIMEOUT_COUNT]; omega) (by decide)
  simp only [I2C_TIMEOUT_COUNT] at hj5
  unfold controller_read_body
  simp only [hw, hdec]
  split
  · split
    · refine ⟨_, _, _, [PdlCall.MasterRead xfer] ++ poll_calls j ++ [], rfl, Or.inl rfl, ?_,
        Or.inr ⟨j, [], hj1, hj5, by simp [read_tails], rfl⟩⟩
      rw [hcalls]; simp [Cy_SCB_I2C_MasterRead]
    · refine ⟨_, _, _, [PdlCall.MasterRead xfer] ++ poll_calls j ++
          [PdlCall.Disable, PdlCall.Enable], rfl, Or.inr rfl, ?_,
        Or.inr ⟨j, _, hj1, hj5, by simp [read_tails], rfl⟩⟩
      simp [Cy_SCB_I2C_Enable, Cy_SCB_I2C_Disable, hcalls, Cy_SCB_I2C_MasterRead]
  · refine ⟨_, _, _, [PdlCall.MasterRead xfer], rfl, Or.inr rfl, ?_, Or.inl rfl⟩
    simp [Cy_SCB_I2C_MasterRead]

/-- One pass through the body of the write loop returns, and its calls have
the shape of a write attempt. -/
theorem controller_write_body_shape (pf : Nat) (xfer : cy_stc_scb_i2c_master_xfer_config_t)
    (rc : Nat) (w : World σ) (hpf : 5 ≤ pf) (h0 : 0 < rc) (h255 : rc ≤ 255) :
    ∃ st rc1 w1 seg, controller_write_body P B cfg pf xfer rc w = some (st, rc1, w1) ∧
      (rc1 = 0 ∨ rc1 = rc - 1) ∧ w1.calls = w.calls ++ seg ∧
      attempt_shape (PdlCall.MasterWrite xfer) write_tails seg := by
  have hdec : (rc + 256 - 1) % 256 = rc - 1 := by omega
  obtain ⟨j, stat, w2, hj1, hj5, hw, hcalls⟩ := wait_complete_shape P B cfg pf I2C_TIMEOUT_COUNT
    (Cy_SCB_I2C_MasterWrite B cfg.i2c_base xfer cfg.i2c_context w).2
    (by decide) (by simp only [I2C_TIMEOUT_COUNT]; omega) (by decide)
  simp only [I2C_TIMEOUT_COUNT] at hj5
  unfold controller_write_body
  simp only [hw, hdec]
  split
  · split
    · split
      · refine ⟨_, _, _, [PdlCall.MasterWrite xfer] ++ poll_calls j ++
            [PdlCall.MasterGetTransferCount], rfl, Or.inl rfl, ?_,
          Or.inr ⟨j, _, hj1, hj5, by simp [write_tails], rfl⟩⟩
        simp [Cy_SCB_I2C_MasterGetTransferCount, hcalls, Cy_SCB_I2C_MasterWrite]
      · refine ⟨_, _, _, [PdlCall.MasterWrite xfer] ++ poll_calls j ++
            [PdlCall.MasterGetTransferCount, PdlCall.Disable, PdlCall.Enable], rfl, Or.inr rfl,
          ?_, Or.inr ⟨j, _, hj1, hj5, by simp [write_tails], rfl⟩⟩
        simp [Cy_SCB_I2C_Enable, Cy_SCB_I2C_Disable, Cy_SCB_I2C_MasterGetTransferCount, hcalls,
          Cy_SCB_I2C_MasterWrite]
    · refine ⟨_, _, _, [PdlCall.MasterWrite xfer] ++ poll_calls j ++
          [PdlCall.Disable, PdlCall.Enable], rfl, Or.inr rfl, ?_,
        Or.inr ⟨j, _, hj1, hj5, by simp [write_tails], rfl⟩⟩
      simp [Cy_SCB_I2C_Enable, Cy_SCB_I2C_Disable, hcalls, Cy_SCB_I2C_MasterWrite]
  · refine ⟨_, _, _, [PdlCall.MasterWrite xfer], rfl, Or.inr rfl, ?_, Or.inl rfl⟩
    simp [Cy_SCB_I2C_MasterWrite]

/-- The read loop returns after at most `retry_count` attempts. -/
theorem controller_read_loop_shape (pf : Nat) (xfer : cy_stc_scb_i2c_master_xfer_config_t)
    (hpf : 5 ≤ pf) (fuel : Nat) :
    ∀ (rc : Nat) (w : World σ), 0 < rc → rc ≤ fuel → rc ≤ 255 →
      ∃ (st : Nat) (w1 : World σ) (segs : List (List PdlCall)), controller_read_loop P B cfg pf xfer fuel rc w = some (st, w1) ∧
        w1.calls = w.calls ++ segs.flatten ∧ 1 ≤ segs.length ∧ segs.length ≤ rc ∧
        ∀ seg ∈ segs, attempt_shape (PdlCall.MasterRead xfer) read_tails seg := by
  induction fuel with
  | zero => intro rc w h0 hf; omega
  | succ n ih =>
    intro rc w h0 hf h255
    obtain ⟨st, rc1, w1, seg, hb, hrc, hcalls, hshape⟩ :=
      controller_read_body_shape P B cfg pf xfer rc w hpf h0 h255
    rw [controller_read_loop_succ P B cfg pf xfer n rc w w1 st rc1 hb]
    by_cases hz : rc1 = 0
    · refine ⟨st, w1, [seg], by simp [hz], by simp [hcalls], by simp, by simpa using h0, ?_⟩
      intro s hs
      rw [List.mem_singleton] at hs
      rw [hs]; exact hshape
    · rw [if_pos hz]
      obtain ⟨st2, w2, segs, h1, h2, h3, h4, h5⟩ := ih rc1 w1 (by omega) (by omega) (by omega)
      refine ⟨st2, w2, seg :: segs, h1, ?_, by simp, by simp; omega, ?_⟩
      · rw [h2, hcalls, List.flatten_cons, List.append_assoc]
      · intro s hs
        rcases List.mem_cons.mp hs with rfl | hs
        · exact hshape
        · exact h5 s hs

/-- The write loop returns after at most `retry_count` attempts. -/
theorem controller_write_loop_shape (pf : Nat) (xfer : cy_stc_scb_i2c_master_xfer_config_t)
    (hpf : 5 ≤ pf) (fuel : Nat) :
    ∀ (rc : Nat) (w : World σ), 0 < rc → rc ≤ fuel → rc ≤ 255 →
      ∃ (st : Nat) (w1 : World σ) (segs : List (List PdlCall)), controller_write_loop P B cfg pf xfer fuel rc w = some (st, w1) ∧
        w1.calls = w.calls ++ segs.flatten ∧ 1 ≤ segs.length ∧ segs.length ≤ rc ∧
        ∀ seg ∈ segs, attempt_shape (PdlCall.MasterWrite xfer) write_tails seg := by
  induction fuel with
  | zero => intro rc w h0 hf; omega
  | succ n ih =>
    intro rc w h0 hf h255
    obtain ⟨st, rc1, w1, seg, hb, hrc, hcalls, hshape⟩ :=
      controller_write_body_shape P B cfg pf xfer rc w hpf h0 h255
    rw [controller_write_loop_succ P B cfg pf xfer n rc w w1 st rc1 hb]
    by_cases hz : rc1 = 0
    · refine ⟨st, w1, [seg], by simp [hz], by simp [hcalls], by simp, by simpa using h0, ?_⟩
      intro s hs
      rw [List.mem_singleton] at hs
      rw [hs]; exact hshape
    · rw [if_pos hz]
      obtain ⟨st2, w2, segs, h1, h2, h3, h4, h5⟩ := ih rc1 w1 (by omega) (by omega) (by omega)
      refine ⟨st2, w2, seg :: segs, h1, ?_, by simp, by simp; omega, ?_⟩
      · rw [h2, hcalls, List.flatten_cons, List.append_assoc]
      · intro s hs
        rcases List.mem_cons.mp hs with rfl | hs
        · exact hshape
        · exact h5 s hs

/-- The shape of the calls of one executor call: at most five attempts. -/
theorem executors_shape (fuel : Nat) (hfuel : 5 ≤ fuel) (buff : buf_ptr) (buff_size : Nat)
    (w : World σ) :
    (∃ (st : Nat) (w1 : World σ) (segs : List (List PdlCall)), mtb_ctp_i2c_controller_read P B cfg fuel buff buff_size w = some (st, w1) ∧
      w1.calls = w.calls ++ segs.flatten ∧ 1 ≤ segs.length ∧ segs.length ≤ 5 ∧
      ∀ seg ∈ segs, attempt_shape (PdlCall.MasterRead (xfer_of buff buff_size)) read_tails seg) ∧
    (∃ (st : Nat) (w1 : World σ) (segs : List (List PdlCall)), mtb_ctp_i2c_controller_write P B cfg fuel buff buff_size w = some (st, w1) ∧
      w1.calls = w.calls ++ segs.flatten ∧ 1 ≤ segs.length ∧ segs.length ≤ 5 ∧
      ∀ seg ∈ segs,
        attempt_shape (PdlCall.MasterWrite (xfer_of buff buff_size)) write_tails seg) :=
  ⟨controller_read_loop_shape P B cfg fuel (xfer_of buff buff_size) hfuel fuel RETRY_COUNT w
      (by decide) (by simp only [RETRY_COUNT]; omega) (by decide),
   controller_write_loop_shape P B cfg fuel (xfer_of buff buff_size) hfuel fuel RETRY_COUNT w
      (by decide) (by simp only [RETRY_COUNT]; omega) (by decide)⟩

/-- The total weight of at most five attempts. -/
theorem segments_total_le (f : PdlCall → Nat) (issue : PdlCall) (tails : List (List PdlCall))
    (c b : Nat) (segs : List (List PdlCall))
    (hc : ∀ tail ∈ tails, total f tail ≤ c)
    (hb : f issue + 5 * (f PdlCall.MasterGetStatus + f (PdlCall.Delay I2C_DELAY_MS)) + c ≤ b)
    (hlen : segs.length ≤ 5) (hshape : ∀ seg ∈ segs, attempt_shape issue tails seg) :
    total f segs.flatten ≤ 5 * b := by
  have h1 := total_flatten_le f b segs
    (fun seg hs => le_trans (attempt_shape_total f issue tails c hc seg (hshape seg hs)) hb)
  have h2 : segs.length * b ≤ 5 * b := Nat.mul_le_mul_right _ hlen
  omega

/-- Claim C13: for every bus stub, one call of mtb_ctp_i2c_controller_read or
mtb_ctp_i2c_controller_write returns, and its PDL calls are at most five
attempts, each made of one transfer issuance, at most five status polls each
followed by exactly one delay of one time unit, and at most one bus disable
and enable; in total at most 5 issuances, 25 polls, 25 delay units, 5 disables
and 5 enables. -/
theorem executor_bounded_blocking (fuel : Nat) (hfuel : 5 ≤ fuel) (buff : buf_ptr)
    (buff_size : Nat) (w : World σ) :
    (∃ (st : Nat) (w1 : World σ) (segs : List (List PdlCall)), mtb_ctp_i2c_controller_read P B cfg fuel buff buff_size w = some (st, w1) ∧
      w1.calls = w.calls ++ segs.flatten ∧ segs.length ≤ 5 ∧
      (∀ seg ∈ segs,
        attempt_shape (PdlCall.MasterRead (xfer_of buff buff_size)) read_tails seg) ∧
      total issue_weight segs.flatten ≤ 5 ∧ total poll_weight segs.flatten ≤ 25 ∧
      total delay_weight segs.flatten ≤ 25 ∧ total disable_weight segs.flatten ≤ 5 ∧
      total enable_weight segs.flatten ≤ 5) ∧
    (∃ (st : Nat) (w1 : World σ) (segs : List (List PdlCall)), mtb_ctp_i2c_controller_write P B cfg fuel buff buff_size w = some (st, w1) ∧
      w1.calls = w.calls ++ segs.flatten ∧ segs.length ≤ 5 ∧
      (∀ seg ∈ segs,
        attempt_shape (PdlCall.MasterWrite (xfer_of buff buff_size)) write_tails seg) ∧
      total issue_weight segs.flatten ≤ 5 ∧ total poll_weight segs.flatten ≤ 25 ∧
      total delay_weight segs.flatten ≤ 25 ∧ total disable_weight segs.flatten ≤ 5 ∧
      total enable_weight segs.flatten ≤ 5) := by
  obtain ⟨⟨st, w1, segs, hr, hcalls, _, hlen, hshape⟩, ⟨st2, w2, segs2, hr2, hcalls2, _, hlen2,
    hshape2⟩⟩ := executors_shape P B cfg fuel hfuel buff buff_size w
  constructor
  · refine ⟨st, w1, segs, hr, hcalls, hlen, hshape, ?_, ?_, ?_, ?_, ?_⟩
    · exact segments_total_le issue_weight _ read_tails 0 1 segs (by decide)
        (by simp [issue_weight]) hlen hshape
    · exact segments_total_le poll_weight _ read_tails 0 5 segs (by decide)
        (by simp [poll_weight]) hlen hshape
    · exact segments_total_le delay_weight _ read_tails 0 5 segs (by decide)
        (by simp [delay_weight, I2C_DELAY_MS]) hlen hshape
    · exact segments_total_le disable_weight _ read_tails 1 1 segs (by decide)
        (by simp [disable_weight]) hlen hshape
    · exact segments_total_le enable_weight _ read_tails 1 1 segs (by decide)
        (by simp [enable_weight]) hlen hshape
  · refine ⟨st2, w2, segs2, hr2, hcalls2, hlen2, hshape2, ?_, ?_, ?_, ?_, ?_⟩
    · exact segments_total_le issue_weight _ write_tails 0 1 segs2 (by decide)
        (by simp [issue_weight]) hlen2 hshape2
    · exact segments_total_le poll_weight _ write_tails 0 5 segs2 (by decide)
        (by simp [poll_weight]) hlen2 hshape2
    · exact segments_total_le delay_weight _ write_tails 0 5 segs2 (by decide)
        (by simp [delay_weight, I2C_DELAY_MS]) hlen2 hshape2
    · exact segments_total_le disable_weight _ write_tails 1 1 segs2 (by decide)
        (by simp [disable_weight]) hlen2 hshape2
    · exact segments_total_le enable_weight _ write_tails 1 1 segs2 (by decide)
        (by simp [enable_weight]) hlen2 hshape2

theorem executor_bounded_blocking_witness :
    ∃ (st : Nat) (w1 : World Unit) (new : List PdlCall),
      mtb_ctp_i2c_controller_read pdl0 (constant_bus 0x00110000 0) cfg0 5 buf_ptr.touch_buff 32
        (unit_world [] []) = some (st, w1) ∧
      w1.calls = new ∧ total issue_weight new ≤ 5 ∧ total poll_weight new ≤ 25 ∧
      total delay_weight new ≤ 25 ∧ total disable_weight new ≤ 5 ∧
      total enable_weight new ≤ 5 := by
  obtain ⟨st, w1, segs, h1, h2, _, _, h3, h4, h5, h6, h7⟩ :=
    (executor_bounded_blocking pdl0 (constant_bus 0x00110000 0) cfg0 5 (by decide)
      buf_ptr.touch_buff 32 (unit_world [] [])).1
  exact ⟨st, w1, segs.flatten, h1, by simpa [unit_world] using h2, h3, h4, h5, h6, h7⟩

/-- When every read issuance fails, the loop makes `retry_count` issuances and
nothing else, and returns the status of the last one. -/
theorem controller_read_loop_issue_fails (pf : Nat) (xfer : cy_stc_scb_i2c_master_xfer_config_t)
    (fuel : Nat)
    (hfail : ∀ hw, (B.MasterRead cfg.i2c_base xfer cfg.i2c_context hw).1 ≠ P.CY_SCB_I2C_SUCCESS) :
    ∀ (n : Nat) (w : World σ), n + 1 ≤ 255 →
      controller_read_loop P B cfg pf xfer (fuel + (n + 1)) (n + 1) w =
        some ((B.MasterRead cfg.i2c_base xfer cfg.i2c_context
            ((read_issue_step B cfg xfer)^[n] w.hw)).1,
          { hw := (read_issue_step B cfg xfer)^[n + 1] w.hw
            calls := w.calls ++ List.replicate (n + 1) (PdlCall.MasterRead xfer) }) := by
  have hbody : ∀ (rc : Nat) (w : World σ), controller_read_body P B cfg pf xfer rc w =
      some ((B.MasterRead cfg.i2c_base xfer cfg.i2c_context w.hw).1, (rc + 256 - 1) % 256,
        { hw := read_issue_step B cfg xfer w.hw
          calls := w.calls ++ [PdlCall.MasterRead xfer] }) := by
    intro rc w
    unfold controller_read_body
    have hne : ¬ P.CY_SCB_I2C_SUCCESS =
        (Cy_SCB_I2C_MasterRead B cfg.i2c_base xfer cfg.i2c_context w).1 :=
      fun h => hfail w.hw h.symm
    rw [if_neg hne]
    rfl
  intro n
  induction n with
  | zero =>
    intro w _
    rw [controller_read_loop_succ P B cfg pf xfer fuel _ w _ _ _ (hbody _ w)]
    simp
  | succ n ih =>
    intro w hle
    have hdec : (n + 1 + 1 + 256 - 1) % 256 = n + 1 := by omega
    rw [show fuel + (n + 1 + 1) = fuel + (n + 1) + 1 from rfl,
      controller_read_loop_succ P B cfg pf xfer _ _ w _ _ _ (hbody _ w), hdec,
      if_pos (by omega), ih _ (by omega)]
    simp [Function.iterate_succ_apply, List.replicate_succ]

/-- When every write issuance fails, the loop makes `retry_count` issuances
and nothing else, and returns the status of the last one. -/
theorem controller_write_loop_issue_fails (pf : Nat) (xfer : cy_stc_scb_i2c_master_xfer_config_t)
    (fuel : Nat)
    (hfail : ∀ hw, (B.MasterWrite cfg.i2c_base xfer cfg.i2c_context hw).1 ≠ P.CY_SCB_I2C_SUCCESS) :
    ∀ (n : Nat) (w : World σ), n + 1 ≤ 255 →
      controller_write_loop P B cfg pf xfer (fuel + (n + 1)) (n + 1) w =
        some ((B.MasterWrite cfg.i2c_base xfer cfg.i2c_context
            ((write_issue_step B cfg xfer)^[n] w.hw)).1,
          { hw := (write_issue_step B cfg xfer)^[n + 1] w.hw
            calls := w.calls ++ List.replicate (n + 1) (PdlCall.MasterWrite xfer) }) := by
  have hbody : ∀ (rc : Nat) (w : World σ), controller_write_body P B cfg pf xfer rc w =
      some ((B.MasterWrite cfg.i2c_base xfer cfg.i2c_context w.hw).1, (rc + 256 - 1) % 256,
        { hw := write_issue_step B cfg xfer w.hw
          calls := w.calls ++ [PdlCall.MasterWrite xfer] }) := by
    intro rc w
    unfold controller_write_body
    have hne : ¬ P.CY_SCB_I2C_SUCCESS =
        (Cy_SCB_I2C_MasterWrite B cfg.i2c_base xfer cfg.i2c_context w).1 :=
      fun h => hfail w.hw h.symm
    rw [if_neg hne]
    rfl
  intro n
  induction n with
  | zero =>
    intro w _
    rw [controller_write_loop_succ P B cfg pf xfer fuel _ w _ _ _ (hbody _ w)]
    simp
  | succ n ih =>
    intro w hle
    have hdec : (n + 1 + 1 + 256 - 1) % 256 = n + 1 := by omega
    rw [show fuel + (n + 1 + 1) = fuel + (n + 1) + 1 from rfl,
      controller_write_loop_succ P B cfg pf xfer _ _ w _ _ _ (hbody _ w), hdec,
      if_pos (by omega), ih _ (by omega)]
    simp [Function.iterate_succ_apply, List.replicate_succ]

/-- Claim C17: with a bus stub whose transfer issuance fails on every attempt,
each executor issues exactly five transfers, makes no status poll, no delay and
no bus disable or enable, and returns the status of the fifth issuance, which
is not CY_SCB_I2C_SUCCESS. -/
theorem executor_issuance_failure (fuel : Nat) (hfuel : 5 ≤ fuel) (buff : buf_ptr)
    (buff_size : Nat) (w : World σ)
    (hread : ∀ base xfer ctx hw, (B.MasterRead base xfer ctx hw).1 ≠ P.CY_SCB_I2C_SUCCESS)
    (hwrite : ∀ base xfer ctx hw, (B.MasterWrite base xfer ctx hw).1 ≠ P.CY_SCB_I2C_SUCCESS) :
    (mtb_ctp_i2c_controller_read P B cfg fuel buff buff_size w =
        some ((B.MasterRead cfg.i2c_base (xfer_of buff buff_size) cfg.i2c_context
            ((read_issue_step B cfg (xfer_of buff buff_size))^[4] w.hw)).1,
          { hw := (read_issue_step B cfg (xfer_of buff buff_size))^[5] w.hw
            calls := w.calls ++
              List.replicate 5 (PdlCall.MasterRead (xfer_of buff buff_size)) }) ∧
      (B.MasterRead cfg.i2c_base (xfer_of buff buff_size) cfg.i2c_context
        ((read_issue_step B cfg (xfer_of buff buff_size))^[4] w.hw)).1 ≠ P.CY_SCB_I2C_SUCCESS) ∧
    (mtb_ctp_i2c_controller_write P B cfg fuel buff buff_size w =
        some ((B.MasterWrite cfg.i2c_base (xfer_of buff buff_size) cfg.i2c_context
            ((write_issue_step B cfg (xfer_of buff buff_size))^[4] w.hw)).1,
          { hw := (write_issue_step B cfg (xfer_of buff buff_size))^[5] w.hw
            calls := w.calls ++
              List.replicate 5 (PdlCall.MasterWrite (xfer_of buff buff_size)) }) ∧
      (B.MasterWrite cfg.i2c_base (xfer_of buff buff_size) cfg.i2c_context
        ((write_issue_step B cfg (xfer_of buff buff_size))^[4] w.hw)).1 ≠
          P.CY_SCB_I2C_SUCCESS) := by
  obtain ⟨f, hf⟩ : ∃ f, fuel = f + (4 + 1) := ⟨fuel - 5, by omega⟩
  refine ⟨⟨?_, hread _ _ _ _⟩, ⟨?_, hwrite _ _ _ _⟩⟩
  · show controller_read_loop P B cfg fuel (xfer_of buff buff_size) fuel RETRY_COUNT w = _
    conv_lhs => arg 6; rw [hf]
    exact controller_read_loop_issue_fails P B cfg fuel _ f (fun hw => hread _ _ _ hw) 4 w
      (by decide)
  · show controller_write_loop P B cfg fuel (xfer_of buff buff_size) fuel RETRY_COUNT w = _
    conv_lhs => arg 6; rw [hf]
    exact controller_write_loop_issue_fails P B cfg fuel _ f (fun hw => hwrite _ _ _ hw) 4 w
      (by decide)

theorem executor_issuance_failure_witness :
    mtb_ctp_i2c_controller_read pdl0 (failing_bus 7) cfg0 5 buf_ptr.touch_buff 32
        (counter_world 0 [] []) =
      some (11, counter_world 5 []
        (List.replicate 5 (PdlCall.MasterRead (xfer_of buf_ptr.touch_buff 32)))) ∧
    mtb_ctp_i2c_controller_write pdl0 (failing_bus 7) cfg0 5 (buf_ptr.stack [0x01]) 1
        (counter_world 0 [] []) =
      some (11, counter_world 5 []
        (List.replicate 5 (PdlCall.MasterWrite (xfer_of (buf_ptr.stack [0x01]) 1)))) :=
  ⟨(executor_issuance_failure pdl0 (failing_bus 7) cfg0 5 (by decide) buf_ptr.touch_buff 32
      (counter_world 0 [] [])
      (fun _ _ _ hw => (by show 7 + hw.dev ≠ 0; omega))
      (fun _ _ _ hw => (by show 7 + hw.dev ≠ 0; omega))).1.1.trans (by rfl),
   (executor_issuance_failure pdl0 (failing_bus 7) cfg0 5 (by decide) (buf_ptr.stack [0x01]) 1
      (counter_world 0 [] [])
      (fun _ _ _ hw => (by show 7 + hw.dev ≠ 0; omega))
      (fun _ _ _ hw => (by show 7 + hw.dev ≠ 0; omega))).2.1.trans (by rfl)⟩

end Bounds

section DriverCalls
variable {σ : Type} (P : Pdl) (B : I2cBus σ) (cfg : mtb_ctp_ft5406_config_t)

/-- The raw touch-data read returns: with the status and state of the
register-select write when that write fails, and with those of the frame read
made after it otherwise. -/
theorem read_raw_touch_data_cases (fuel : Nat) (hfuel : 5 ≤ fuel) (touch_data : buf_ptr)
    (size : Nat) (w : World σ) :
    ∃ (st1 : Nat) (w1 : World σ) (segs1 : List (List PdlCall)),
      mtb_ctp_i2c_controller_write P B cfg fuel (buf_ptr.stack [0x01]) 1 w = some (st1, w1) ∧
      w1.calls = w.calls ++ segs1.flatten ∧
      (∀ seg ∈ segs1,
        attempt_shape (PdlCall.MasterWrite (xfer_of (buf_ptr.stack [0x01]) 1)) write_tails seg) ∧
      (st1 ≠ P.CY_SCB_I2C_SUCCESS →
        mtb_ctp_ft5406_read_raw_touch_data P B cfg fuel touch_data size w = some (st1, w1)) ∧
      (st1 = P.CY_SCB_I2C_SUCCESS →
        ∃ (st2 : Nat) (w2 : World σ) (segs2 : List (List PdlCall)),
          mtb_ctp_i2c_controller_read P B cfg fuel touch_data size w1 = some (st2, w2) ∧
          w2.calls = w1.calls ++ segs2.flatten ∧
          (∀ seg ∈ segs2,
            attempt_shape (PdlCall.MasterRead (xfer_of touch_data size)) read_tails seg) ∧
          mtb_ctp_ft5406_read_raw_touch_data P B cfg fuel touch_data size w = some (st2, w2)) := by
  obtain ⟨st1, w1, segs1, h1, h2, _, _, h3⟩ :=
    (executors_shape P B cfg fuel hfuel (buf_ptr.stack [0x01]) 1 w).2
  refine ⟨st1, w1, segs1, h1, h2, h3, ?_, ?_⟩
  · intro hne
    unfold mtb_ctp_ft5406_read_raw_touch_data
    simp only [MTB_CTP_REG_READ_TOUCH_DATA]
    rw [h1]
    have hn : ¬ P.CY_SCB_I2C_SUCCESS = st1 := fun h => hne h.symm
    simp only [if_neg hn]
  · intro heq
    obtain ⟨st2, w2, segs2, h4, h5, _, _, h6⟩ :=
      (executors_shape P B cfg fuel hfuel touch_data size w1).1
    refine ⟨st2, w2, segs2, h4, h5, h6, ?_⟩
    unfold mtb_ctp_ft5406_read_raw_touch_data
    simp only [MTB_CTP_REG_READ_TOUCH_DATA]
    rw [h1]
    simp only [heq, if_true, h4]

theorem read_raw_touch_data_total (fuel : Nat) (hfuel : 5 ≤ fuel) (touch_data : buf_ptr)
    (size : Nat) (w : World σ) :
    ∃ st w1, mtb_ctp_ft5406_read_raw_touch_data P B cfg fuel touch_data size w = some (st, w1) := by
  obtain ⟨st1, w1, _, _, _, _, hf, hs⟩ :=
    read_raw_touch_data_cases P B cfg fuel hfuel touch_data size w
  by_cases h : st1 = P.CY_SCB_I2C_SUCCESS
  · obtain ⟨st2, w2, _, _, _, _, h2⟩ := hs h
    exact ⟨st2, w2, h2⟩
  · exact ⟨st1, w1, hf h⟩

/-- Claim C12: mtb_ctp_ft5406_get_single_touch returns, and whenever the status
it returns is not CY_SCB_I2C_SUCCESS the reported event is Reserved, whatever
the caller's event variable held, and the x and y outputs are unchanged. -/
theorem get_single_touch_failure_reports_reserved (fuel : Nat) (hfuel : 5 ≤ fuel)
    (out : SingleTouch) (w : World σ) :
    (∃ r, mtb_ctp_ft5406_get_single_touch P B cfg fuel out w = some r) ∧
    ∀ (st : Nat) (out1 : SingleTouch) (w1 : World σ),
      mtb_ctp_ft5406_get_single_touch P B cfg fuel out w = some (st, out1, w1) →
      st ≠ P.CY_SCB_I2C_SUCCESS →
      out1 = { touch_event := MTB_CTP_TOUCH_RESERVED
               touch_x := out.touch_x
               touch_y := out.touch_y } := by
  obtain ⟨st0, w0, hraw⟩ := read_raw_touch_data_total P B cfg fuel hfuel buf_ptr.touch_buff
    MTB_CTP_FT5406_TOUCH_DATA_LEN w
  unfold mtb_ctp_ft5406_get_single_touch
  rw [hraw]
  by_cases hs : P.CY_SCB_I2C_SUCCESS = st0
  · simp only [if_pos hs]
    constructor
    · split <;> exact ⟨_, rfl⟩
    · intro st out1 w1 h hne
      exfalso
      split at h <;>
      · simp only [Option.some.injEq, Prod.mk.injEq] at h
        exact hne (h.1 ▸ hs.symm)
  · simp only [if_neg hs]
    refine ⟨⟨_, rfl⟩, ?_⟩
    intro st out1 w1 h _
    simp only [Option.some.injEq, Prod.mk.injEq] at h
    exact h.2.1.symm

theorem get_single_touch_failure_reports_reserved_witness :
    mtb_ctp_ft5406_get_single_touch pdl0 (failing_bus 7) cfg0 5
        { touch_event := 0, touch_x := -7, touch_y := 1234 } (counter_world 0 [] []) =
      some (11, { touch_event := 3, touch_x := -7, touch_y := 1234 },
        counter_world 5 []
          (List.replicate 5 (PdlCall.MasterWrite (xfer_of (buf_ptr.stack [0x01]) 1)))) ∧
    ({ touch_event := 3, touch_x := -7, touch_y := 1234 } : SingleTouch) =
      { touch_event := MTB_CTP_TOUCH_RESERVED, touch_x := -7, touch_y := 1234 } :=
  ⟨by rfl,
   (get_single_touch_failure_reports_reserved pdl0 (failing_bus 7) cfg0 5 (by decide)
      { touch_event := 0, touch_x := -7, touch_y := 1234 } (counter_world 0 [] [])).2
      11 { touch_event := 3, touch_x := -7, touch_y := 1234 }
      (counter_world 5 []
        (List.replicate 5 (PdlCall.MasterWrite (xfer_of (buf_ptr.stack [0x01]) 1))))
      (by rfl) (by decide)⟩

/-- Claim C20: mtb_ctp_ft5406_get_multi_touch returns, and whenever the status
it returns is not CY_SCB_I2C_SUCCESS the caller's touch_count and all entries
of touch_array are exactly as they were before the call. -/
theorem get_multi_touch_failure_keeps_outputs (fuel : Nat) (hfuel : 5 ≤ fuel)
    (out : MultiTouch) (w : World σ) :
    (∃ r, mtb_ctp_ft5406_get_multi_touch P B cfg fuel out w = some r) ∧
    ∀ (st : Nat) (out1 : MultiTouch) (w1 : World σ),
      mtb_ctp_ft5406_get_multi_touch P B cfg fuel out w = some (st, out1, w1) →
      st ≠ P.CY_SCB_I2C_SUCCESS →
      out1 = out := by
  obtain ⟨st0, w0, hraw⟩ := read_raw_touch_data_total P B cfg fuel hfuel buf_ptr.touch_buff
    MTB_CTP_FT5406_TOUCH_DATA_LEN w
  unfold mtb_ctp_ft5406_get_multi_touch
  rw [hraw]
  by_cases hs : P.CY_SCB_I2C_SUCCESS = st0
  · simp only [if_pos hs]
    refine ⟨⟨_, rfl⟩, ?_⟩
    intro st out1 w1 h hne
    exfalso
    simp only [Option.some.injEq, Prod.mk.injEq] at h
    exact hne (h.1 ▸ hs.symm)
  · simp only [if_neg hs]
    refine ⟨⟨_, rfl⟩, ?_⟩
    intro st out1 w1 h _
    simp only [Option.some.injEq, Prod.mk.injEq] at h
    exact h.2.1.symm

theorem get_multi_touch_failure_keeps_outputs_witness :
    mtb_ctp_ft5406_get_multi_touch pdl0 (failing_bus 7) cfg0 5
        { touch_count := 2,
          touch_array := [⟨0, 1, 10, 20⟩, ⟨2, 2, 30, 40⟩, ⟨3, 0, 0, 0⟩, ⟨3, 0, 0, 0⟩, ⟨1, 5, 7, 9⟩] }
        (counter_world 0 [] []) =
      some (11,
        { touch_count := 2,
          touch_array := [⟨0, 1, 10, 20⟩, ⟨2, 2, 30, 40⟩, ⟨3, 0, 0, 0⟩, ⟨3, 0, 0, 0⟩, ⟨1, 5, 7, 9⟩] },
        counter_world 5 []
          (List.replicate 5 (PdlCall.MasterWrite (xfer_of (buf_ptr.stack [0x01]) 1)))) ∧
    ({ touch_count := 2,
       touch_array := [⟨0, 1, 10, 20⟩, ⟨2, 2, 30, 40⟩, ⟨3, 0, 0, 0⟩, ⟨3, 0, 0, 0⟩, ⟨1, 5, 7, 9⟩] } :
        MultiTouch) =
      { touch_count := 2,
        touch_array := [⟨0, 1, 10, 20⟩, ⟨2, 2, 30, 40⟩, ⟨3, 0, 0, 0⟩, ⟨3, 0, 0, 0⟩, ⟨1, 5, 7, 9⟩] } :=
  ⟨by rfl,
   (get_multi_touch_failure_keeps_outputs pdl0 (failing_bus 7) cfg0 5 (by decide)
      { touch_count := 2,
        touch_array := [⟨0, 1, 10, 20⟩, ⟨2, 2, 30, 40⟩, ⟨3, 0, 0, 0⟩, ⟨3, 0, 0, 0⟩, ⟨1, 5, 7, 9⟩] }
      (counter_world 0 [] [])).2
      11 _ (counter_world 5 []
        (List.replicate 5 (PdlCall.MasterWrite (xfer_of (buf_ptr.stack [0x01]) 1))))
      (by rfl) (by decide)⟩

/-- Claim C14, refuted on a bus whose issuance always fails: the
register-select write returns the failure status 11 after five issuances, and
mtb_ctp_ft5406_get_single_touch and mtb_ctp_ft5406_get_multi_touch then return
11 in the state that the write left, with no read issued; the executor read
from that state would have issued five reads and returned 16. -/
theorem touch_read_skips_frame_read_counterexample :
    mtb_ctp_ft5406_get_single_touch pdl0 (failing_bus 7) cfg0 5
        { touch_event := 0, touch_x := 0, touch_y := 0 } (counter_world 0 [] []) =
      some (11, { touch_event := 3, touch_x := 0, touch_y := 0 },
        counter_world 5 []
          (List.replicate 5 (PdlCall.MasterWrite (xfer_of (buf_ptr.stack [0x01]) 1)))) ∧
    mtb_ctp_ft5406_get_multi_touch pdl0 (failing_bus 7) cfg0 5
        { touch_count := 0, touch_array := List.replicate 5 cleared_point }
        (counter_world 0 [] []) =
      some (11, { touch_count := 0, touch_array := List.replicate 5 cleared_point },
        counter_world 5 []
          (List.replicate 5 (PdlCall.MasterWrite (xfer_of (buf_ptr.stack [0x01]) 1)))) ∧
    total read_weight
      (List.replicate 5 (PdlCall.MasterWrite (xfer_of (buf_ptr.stack [0x01]) 1))) = 0 ∧
    ¬ ∃ (st1 : Nat) (w1 : World Nat) (st2 : Nat) (w2 : World Nat) (o : SingleTouch),
      mtb_ctp_i2c_controller_write pdl0 (failing_bus 7) cfg0 5 (buf_ptr.stack [0x01]) 1
        (counter_world 0 [] []) = some (st1, w1) ∧
      mtb_ctp_i2c_controller_read pdl0 (failing_bus 7) cfg0 5 buf_ptr.touch_buff 32 w1 =
        some (st2, w2) ∧
      mtb_ctp_ft5406_get_single_touch pdl0 (failing_bus 7) cfg0 5
        { touch_event := 0, touch_x := 0, touch_y := 0 } (counter_world 0 [] []) =
        some (st2, o, w2) := by
  have hs : mtb_ctp_ft5406_get_single_touch pdl0 (failing_bus 7) cfg0 5
        { touch_event := 0, touch_x := 0, touch_y := 0 } (counter_world 0 [] []) =
      some (11, { touch_event := 3, touch_x := 0, touch_y := 0 },
        counter_world 5 []
          (List.replicate 5 (PdlCall.MasterWrite (xfer_of (buf_ptr.stack [0x01]) 1)))) := by rfl
  have hw : mtb_ctp_i2c_controller_write pdl0 (failing_bus 7) cfg0 5 (buf_ptr.stack [0x01]) 1
        (counter_world 0 [] []) =
      some (11, counter_world 5 []
        (List.replicate 5 (PdlCall.MasterWrite (xfer_of (buf_ptr.stack [0x01]) 1)))) := by rfl
  have hr : mtb_ctp_i2c_controller_read pdl0 (failing_bus 7) cfg0 5 buf_ptr.touch_buff 32
        (counter_world 5 []
          (List.replicate 5 (PdlCall.MasterWrite (xfer_of (buf_ptr.stack [0x01]) 1)))) =
      some (16, counter_world 10 []
        (List.replicate 5 (PdlCall.MasterWrite (xfer_of (buf_ptr.stack [0x01]) 1)) ++
         List.replicate 5 (PdlCall.MasterRead (xfer_of buf_ptr.touch_buff 32)))) := by rfl
  refine ⟨hs, by rfl, by rfl, ?_⟩
  rintro ⟨st1, w1, st2, w2, o, h1, h2, h3⟩
  rw [hw] at h1
  simp only [Option.some.injEq, Prod.mk.injEq] at h1
  rw [← h1.2, hr] at h2
  rw [hs] at h3
  simp only [Option.some.injEq, Prod.mk.injEq] at h2 h3
  have : (16 : Nat) = 11 := h2.1.trans h3.1.symm
  omega

/-- Claim C14 as amended: every invocation of mtb_ctp_ft5406_get_single_touch
and of mtb_ctp_ft5406_get_multi_touch performs exactly one executor write of
the single byte [0x01] to address 0x38; when that write returns a failure
status the function returns it and performs no read; when the write returns
success it is followed by exactly one executor read of 32 bytes from address
0x38 into the receive buffer, whose status the function returns. -/
theorem touch_read_sequence (fuel : Nat) (hfuel : 5 ≤ fuel) (sout : SingleTouch)
    (mout : MultiTouch) (w : World σ) :
    ∃ (st1 : Nat) (w1 : World σ) (segs1 : List (List PdlCall)),
      mtb_ctp_i2c_controller_write P B cfg fuel (buf_ptr.stack [0x01]) 1 w = some (st1, w1) ∧
      w1.calls = w.calls ++ segs1.flatten ∧
      (∀ seg ∈ segs1,
        attempt_shape
          (PdlCall.MasterWrite
            { slaveAddress := 0x38, buffer := buf_ptr.stack [0x01], bufferSize := 1,
              xferPending := false })
          write_tails seg) ∧
      (st1 ≠ P.CY_SCB_I2C_SUCCESS →
        mtb_ctp_ft5406_get_single_touch P B cfg fuel sout w =
          some (st1, { sout with touch_event := MTB_CTP_TOUCH_RESERVED }, w1) ∧
        mtb_ctp_ft5406_get_multi_touch P B cfg fuel mout w = some (st1, mout, w1)) ∧
      (st1 = P.CY_SCB_I2C_SUCCESS →
        ∃ (st2 : Nat) (w2 : World σ) (segs2 : List (List PdlCall)),
          mtb_ctp_i2c_controller_read P B cfg fuel buf_ptr.touch_buff 32 w1 = some (st2, w2) ∧
          w2.calls = w1.calls ++ segs2.flatten ∧
          (∀ seg ∈ segs2,
            attempt_shape
              (PdlCall.MasterRead
                { slaveAddress := 0x38, buffer := buf_ptr.touch_buff, bufferSize := 32,
                  xferPending := false })
              read_tails seg) ∧
          (∃ o, mtb_ctp_ft5406_get_single_touch P B cfg fuel sout w = some (st2, o, w2)) ∧
          (∃ o w3, mtb_ctp_ft5406_get_multi_touch P B cfg fuel mout w = some (st2, o, w3) ∧
            w3.calls = w2.calls ∧ w3.hw.dev = w2.hw.dev)) := by
  obtain ⟨st1, w1, segs1, h1, h2, h3, hf, hs⟩ :=
    read_raw_touch_data_cases P B cfg fuel hfuel buf_ptr.touch_buff
      MTB_CTP_FT5406_TOUCH_DATA_LEN w
  refine ⟨st1, w1, segs1, h1, h2, h3, ?_, ?_⟩
  · intro hne
    have hn : ¬ P.CY_SCB_I2C_SUCCESS = st1 := fun h => hne h.symm
    constructor
    · unfold mtb_ctp_ft5406_get_single_touch
      rw [hf hne]
      simp only [if_neg hn]
    · unfold mtb_ctp_ft5406_get_multi_touch
      rw [hf hne]
      simp only [if_neg hn]
  · intro heq
    obtain ⟨st2, w2, segs2, h4, h5, h6, h7⟩ := hs heq
    refine ⟨st2, w2, segs2, h4, h5, h6, ?_, ?_⟩
    · unfold mtb_ctp_ft5406_get_single_touch
      rw [h7]
      simp only
      split
      · split <;> exact ⟨_, rfl⟩
      · exact ⟨_, rfl⟩
    · unfold mtb_ctp_ft5406_get_multi_touch
      rw [h7]
      simp only
      split
      · exact ⟨_, _, rfl, rfl, rfl⟩
      · exact ⟨_, _, rfl, rfl, rfl⟩

theorem touch_read_sequence_witness :
    ∃ (st1 : Nat) (w1 : World Script),
      mtb_ctp_i2c_controller_write pdl0 script_bus cfg0 5 (buf_ptr.stack [0x01]) 1
        (script_world [] [] [] (List.replicate 32 0xFF) []) = some (st1, w1) ∧
      (st1 = pdl0.CY_SCB_I2C_SUCCESS →
        ∃ (st2 : Nat) (w2 : World Script),
          mtb_ctp_i2c_controller_read pdl0 script_bus cfg0 5 buf_ptr.touch_buff 32 w1 =
            some (st2, w2) ∧
          ∃ o, mtb_ctp_ft5406_get_single_touch pdl0 script_bus cfg0 5
            { touch_event := 0, touch_x := 0, touch_y := 0 }
            (script_world [] [] [] (List.replicate 32 0xFF) []) = some (st2, o, w2)) := by
  obtain ⟨st1, w1, _, h1, _, _, _, hs⟩ :=
    touch_read_sequence pdl0 script_bus cfg0 5 (by decide)
      { touch_event := 0, touch_x := 0, touch_y := 0 }
      { touch_count := 0, touch_array := List.replicate 5 cleared_point }
      (script_world [] [] [] (List.replicate 32 0xFF) [])
  refine ⟨st1, w1, h1, fun heq => ?_⟩
  obtain ⟨st2, w2, _, h4, _, _, h5, _⟩ := hs heq
  exact ⟨st2, w2, h4, h5⟩

/-- Claim C15: mtb_ctp_ft5406_init stores its argument as the active controller
context whether or not the write succeeds, and its result is that of one
executor write of the two bytes [0x00, 0x00]: the call returns, every transfer
it issues is a write with target address 0x38, buffer [0x00, 0x00], size 2 and
xferPending = false, and it issues no read. -/
theorem init_writes_normal_mode (fuel : Nat) (hfuel : 5 ≤ fuel)
    (mtb_ft5406_config : mtb_ctp_ft5406_config_t) (w : World σ) :
    (mtb_ctp_ft5406_init P B fuel mtb_ft5406_config w).1 = mtb_ft5406_config ∧
    (mtb_ctp_ft5406_init P B fuel mtb_ft5406_config w).2 =
      mtb_ctp_i2c_controller_write P B mtb_ft5406_config fuel (buf_ptr.stack [0x00, 0x00]) 2 w ∧
    ∃ (st : Nat) (w1 : World σ) (segs : List (List PdlCall)),
      (mtb_ctp_ft5406_init P B fuel mtb_ft5406_config w).2 = some (st, w1) ∧
      w1.calls = w.calls ++ segs.flatten ∧ 1 ≤ segs.length ∧ segs.length ≤ 5 ∧
      (∀ seg ∈ segs,
        attempt_shape
          (PdlCall.MasterWrite
            { slaveAddress := 0x38, buffer := buf_ptr.stack [0x00, 0x00], bufferSize := 2,
              xferPending := false })
          write_tails seg) ∧
      total read_weight segs.flatten = 0 := by
  refine ⟨rfl, rfl, ?_⟩
  obtain ⟨st, w1, segs, h1, h2, h3, h4, h5⟩ :=
    (executors_shape P B mtb_ft5406_config fuel hfuel (buf_ptr.stack [0x00, 0x00]) 2 w).2
  refine ⟨st, w1, segs, h1, h2, h3, h4, h5, ?_⟩
  have hle := segments_total_le read_weight _ write_tails 0 0 segs (by decide)
    (by simp [read_weight]) h4 h5
  omega

theorem init_writes_normal_mode_witness :
    (mtb_ctp_ft5406_init pdl0 (constant_bus 0 2) 5 cfg0 (unit_world [] [])).1 = cfg0 ∧
    (mtb_ctp_ft5406_init pdl0 (constant_bus 0 2) 5 cfg0 (unit_world [] [])).2 =
      some (0, unit_world []
        [PdlCall.MasterWrite
           { slaveAddress := 0x38, buffer := buf_ptr.stack [0x00, 0x00], bufferSize := 2,
             xferPending := false },
         PdlCall.MasterGetStatus, PdlCall.Delay 1, PdlCall.MasterGetTransferCount]) :=
  ⟨(init_writes_normal_mode pdl0 (constant_bus 0 2) 5 (by decide) cfg0 (unit_world [] [])).1,
   (init_writes_normal_mode pdl0 (constant_bus 0 2) 5 (by decide) cfg0
      (unit_world [] [])).2.1.trans (by rfl)⟩

end DriverCalls

section RawRead
variable {σ : Type} (P : Pdl) (B : I2cBus σ) (cfg : mtb_ctp_ft5406_config_t)

/-- The poll loop leaves the receive buffer as it is when the status poll and
the delay do. -/
theorem wait_complete_keeps_buffer (hB : write_keeps_buffer B) (fuel : Nat) :
    ∀ (t : Nat) (w w1 : World σ) (stat : Nat),
      wait_complete P B cfg fuel t w = some (stat, w1) →
      w1.hw.touch_buff = w.hw.touch_buff := by
  induction fuel with
  | zero => intro t w w1 stat h; simp [wait_complete] at h
  | succ n ih =>
    intro t w w1 stat h
    have hstep : (Cy_SysLib_Delay B I2C_DELAY_MS
        (Cy_SCB_I2C_MasterGetStatus B cfg.i2c_base cfg.i2c_context w).2).hw.touch_buff =
        w.hw.touch_buff := by
      simp only [Cy_SysLib_Delay, Cy_SCB_I2C_MasterGetStatus]
      rw [hB.2.2.2.2.2, hB.2.1]
    rw [wait_complete] at h
    split at h
    · rw [ih _ _ _ _ h, hstep]
    · simp only [Option.some.injEq, Prod.mk.injEq] at h
      rw [← h.2, hstep]

/-- One pass through the body of the write loop leaves the receive buffer as
it is. -/
theorem controller_write_body_keeps_buffer (hB : write_keeps_buffer B) (pf : Nat)
    (xfer : cy_stc_scb_i2c_master_xfer_config_t) (rc : Nat) (w w1 : World σ) (st rc1 : Nat)
    (h : controller_write_body P B cfg pf xfer rc w = some (st, rc1, w1)) :
    w1.hw.touch_buff = w.hw.touch_buff := by
  have hissue : (Cy_SCB_I2C_MasterWrite B cfg.i2c_base xfer cfg.i2c_context w).2.hw.touch_buff =
      w.hw.touch_buff := by
    simp only [Cy_SCB_I2C_MasterWrite]
    rw [hB.1]
  have hrec : ∀ v : World σ,
      (Cy_SCB_I2C_Enable B cfg.i2c_base
        (Cy_SCB_I2C_Disable B cfg.i2c_base cfg.i2c_context v)).hw.touch_buff =
      v.hw.touch_buff := by
    intro v
    simp only [Cy_SCB_I2C_Enable, Cy_SCB_I2C_Disable]
    rw [hB.2.2.2.2.1, hB.2.2.2.1]
  have hcount : ∀ v : World σ,
      (Cy_SCB_I2C_MasterGetTransferCount B cfg.i2c_base cfg.i2c_context v).2.hw.touch_buff =
      v.hw.touch_buff := by
    intro v
    simp only [Cy_SCB_I2C_MasterGetTransferCount]
    rw [hB.2.2.1]
  unfold controller_write_body at h
  simp only at h
  split at h
  · split at h
    · exact absurd h (by simp)
    · rename_i stat w2 hw
      have hpoll := wait_complete_keeps_buffer P B cfg hB pf _ _ _ _ hw
      split at h
      · split at h
        · simp only [Option.some.injEq, Prod.mk.injEq] at h
          rw [← h.2.2, hcount, hpoll, hissue]
        · simp only [Option.some.injEq, Prod.mk.injEq] at h
          rw [← h.2.2, hrec, hcount, hpoll, hissue]
      · simp only [Option.some.injEq, Prod.mk.injEq] at h
        rw [← h.2.2, hrec, hpoll, hissue]
  · simp only [Option.some.injEq, Prod.mk.injEq] at h
    rw [← h.2.2, hissue]

/-- The write loop leaves the receive buffer as it is. -/
theorem controller_write_loop_keeps_buffer (hB : write_keeps_buffer B) (pf : Nat)
    (xfer : cy_stc_scb_i2c_master_xfer_config_t) (fuel : Nat) :
    ∀ (rc : Nat) (w w1 : World σ) (st : Nat),
      controller_write_loop P B cfg pf xfer fuel rc w = some (st, w1) →
      w1.hw.touch_buff = w.hw.touch_buff := by
  induction fuel with
  | zero => intro rc w w1 st h; simp [controller_write_loop] at h
  | succ n ih =>
    intro rc w w1 st h
    rw [controller_write_loop] at h
    split at h
    · exact absurd h (by simp)
    · rename_i st0 rc1 w0 hb
      have h0 := controller_write_body_keeps_buffer P B cfg hB pf xfer rc w w0 st0 rc1 hb
      split at h
      · rw [ih _ _ _ _ h, h0]
      · simp only [Option.some.injEq, Prod.mk.injEq] at h
        rw [← h.2, h0]

/-- Claim C21: in mtb_ctp_ft5406_read_raw_touch_data, if the register-select
write returns a non-success status, the function returns exactly that status
in the state the write left: the calls it made contain no read issuance, and
the receive buffer is as before the call (a write transfer does not store into
it).  If the write returns success, the function returns exactly the status
of the read executed after it. -/
theorem read_raw_touch_data_status (fuel : Nat) (hfuel : 5 ≤ fuel) (touch_data : buf_ptr)
    (size : Nat) (w : World σ) :
    ∃ (st1 : Nat) (w1 : World σ) (new : List PdlCall),
      mtb_ctp_i2c_controller_write P B cfg fuel (buf_ptr.stack [0x01]) 1 w = some (st1, w1) ∧
      w1.calls = w.calls ++ new ∧
      (st1 ≠ P.CY_SCB_I2C_SUCCESS →
        mtb_ctp_ft5406_read_raw_touch_data P B cfg fuel touch_data size w = some (st1, w1) ∧
        total read_weight new = 0 ∧
        (write_keeps_buffer B → w1.hw.touch_buff = w.hw.touch_buff)) ∧
      (st1 = P.CY_SCB_I2C_SUCCESS →
        ∃ (st2 : Nat) (w2 : World σ),
          mtb_ctp_i2c_controller_read P B cfg fuel touch_data size w1 = some (st2, w2) ∧
          mtb_ctp_ft5406_read_raw_touch_data P B cfg fuel touch_data size w =
            some (st2, w2)) := by
  obtain ⟨st1, w1, segs1, h1, h2, h3, hf, hs⟩ :=
    read_raw_touch_data_cases P B cfg fuel hfuel touch_data size w
  refine ⟨st1, w1, segs1.flatten, h1, h2, ?_, ?_⟩
  · intro hne
    refine ⟨hf hne, ?_, ?_⟩
    · obtain ⟨st, v, segs, e1, e2, _, e4, e5⟩ :=
        (executors_shape P B cfg fuel hfuel (buf_ptr.stack [0x01]) 1 w).2
      rw [h1] at e1
      simp only [Option.some.injEq, Prod.mk.injEq] at e1
      have hcalls : segs1.flatten = segs.flatten := by
        have := e2
        rw [← e1.2, h2] at this
        exact List.append_cancel_left this
      have hle := segments_total_le read_weight _ write_tails 0 0 segs (by decide)
        (by simp [read_weight]) e4 e5
      rw [hcalls]
      omega
    · intro hB
      exact controller_write_loop_keeps_buffer P B cfg hB fuel _ fuel RETRY_COUNT w w1 st1 h1
  · intro heq
    obtain ⟨st2, w2, _, h4, _, _, h7⟩ := hs heq
    exact ⟨st2, w2, h4, h7⟩

theorem read_raw_touch_data_status_witness :
    mtb_ctp_ft5406_read_raw_touch_data pdl0 (failing_bus 7) cfg0 5 buf_ptr.touch_buff 32
        (counter_world 0 [1, 2, 3] []) =
      some (11, counter_world 5 [1, 2, 3]
        (List.replicate 5 (PdlCall.MasterWrite (xfer_of (buf_ptr.stack [0x01]) 1)))) ∧
    ∃ (st1 : Nat) (w1 : World Nat),
      mtb_ctp_i2c_controller_write pdl0 (failing_bus 7) cfg0 5 (buf_ptr.stack [0x01]) 1
        (counter_world 0 [1, 2, 3] []) = some (st1, w1) ∧
      (st1 ≠ pdl0.CY_SCB_I2C_SUCCESS →
        mtb_ctp_ft5406_read_raw_touch_data pdl0 (failing_bus 7) cfg0 5 buf_ptr.touch_buff 32
          (counter_world 0 [1, 2, 3] []) = some (st1, w1) ∧
        w1.hw.touch_buff = [1, 2, 3]) := by
  obtain ⟨st1, w1, _, h1, _, hf, _⟩ :=
    read_raw_touch_data_status pdl0 (failing_bus 7) cfg0 5 (by decide) buf_ptr.touch_buff 32
      (counter_world 0 [1, 2, 3] [])
  refine ⟨by rfl, st1, w1, h1, fun hne => ⟨(hf hne).1, ?_⟩⟩
  exact (hf hne).2.2
    ⟨fun _ _ _ _ => rfl, fun _ _ _ => rfl, fun _ _ _ => rfl, fun _ _ _ => rfl,
      fun _ _ => rfl, fun _ _ => rfl⟩

end RawRead

end FT5406
